import Mathlib

/-!
Shallow embedding of the fullstori graph/event engine.

Sources embedded here:
* `src/src/app/api/dag/[id]/route.ts` — the saveGraph (reconcile) POST handler
  and the reorder-events POST handler (third document of the file);
* `src/unnamed/part_002` (second document) — the createEvent POST handler,
  the variant with `seriesDay`/`sourceDagId` support that the claims cite;
* `src/src/app/api/entities/route.ts` — the createEntity POST handler;
* `src/unnamed/part_006` (third document) — `calculateSmartPosition`,
  `hasPositionConflict`, `findNonConflictingPosition`.

Modelling conventions:
* The relational store is a `DB` record of lists; Prisma `findFirst`/`findUnique`
  become `List.find?`, `deleteMany` becomes `List.filter`, `update` becomes
  `List.map` guarded by the id, `create` appends.
* JS numbers are embedded as rationals (`ℚ`); a timestamp's calendar day is its
  floor, so Prisma's `[start-of-day, next-day)` window test becomes equality of
  floors.  `Math.cos`/`Math.sin` (transcendental, used only on the spiral angles
  `45°·k`) are abstracted as parameters `cosf sinf : ℕ → ℚ` indexed by the
  attempt counter; every theorem about the spiral holds for all such functions.
* JS `undefined`/`null` become `Option`; JS truthiness on strings (`"" ⇒ false`)
  is `truthyS`, on numbers (`0 ⇒ false`) is `truthySeriesDay`; `x || null` is
  `orNull`.
* Ids the database would generate (cuid) are passed in as explicit arguments.
* Request bodies are already-parsed records; the JSON-shape rejections of the
  handlers are represented by the emptiness checks that the handlers perform on
  the parsed fields.  A request `date` field is `Option (Option ℚ)`: `none` is
  an absent/falsy field, `some none` a present but unparseable date string,
  `some (some t)` a date parsing to timestamp `t`.
-/

namespace Fullstori

/-- 2D position, JS numbers embedded as rationals. -/
structure Pos where
  x : ℚ
  y : ℚ
deriving DecidableEq

/-- Prisma `Role` row. -/
structure Role where
  id : String
  name : String
  category : String
  isSystem : Bool
deriving DecidableEq

/-- Prisma `Entity` row. -/
structure Entity where
  id : String
  name : String
  roleId : String
  entityType : String
  description : Option String
  avatar : Option String
deriving DecidableEq

/-- Prisma `DAGNode` row. -/
structure DAGNode where
  id : String
  dagId : String
  entityId : String
  x : ℚ
  y : ℚ
  type : String
  category : Option String
deriving DecidableEq

/-- Prisma `DAGEdge` row. -/
structure DAGEdge where
  id : String
  dagId : String
  sourceId : String
  targetId : String
  label : Option String
  relationshipTypeId : Option String
  sourceHandle : Option String
  targetHandle : Option String
  createdFromEventId : Option String
deriving DecidableEq

/-- Prisma `EventType` row. -/
structure EventType where
  id : String
  name : String
  icon : String
  color : String
deriving DecidableEq

/-- Prisma `Event` row.  `date` is a timestamp (calendar day = its floor). -/
structure Event where
  id : String
  dagId : String
  title : String
  description : Option String
  date : Option ℚ
  seriesDay : Option ℤ
  sortOrder : ℤ
  eventTypeId : String
  sourceDagId : Option String
  sourceNodeId : Option String
  targetNodeId : Option String
  participantNodeIds : List String
  createdEdgeId : Option String
deriving DecidableEq

/-- The persisted store: every Prisma table the embedded handlers touch.
`dags` keeps only the DAG ids; the handlers embedded here read no other
DAG column. -/
structure DB where
  dags : List String
  roles : List Role
  entities : List Entity
  nodes : List DAGNode
  edges : List DAGEdge
  eventTypes : List EventType
  events : List Event
deriving DecidableEq

/-! ### JS-level helpers -/

/-- JS truthiness of an optional string field (`undefined`, `null` and `""` are
falsy). -/
def truthyS : Option String → Bool
  | some s => s != ""
  | none => false

/-- JS truthiness of the numeric `seriesDay` field (`0` is falsy). -/
def truthySeriesDay : Option ℤ → Bool
  | some k => k != 0
  | none => false

/-- JS `x || null` on an optional string field. -/
def orNull : Option String → Option String
  | some s => if s == "" then none else some s
  | none => none

/-- JS `s.toLowerCase()` restricted to ASCII, the alphabet of every role-name
comparison in the source.  (List-based so that proofs can evaluate it; the
core-library `String.toLower` is well-founded recursion.) -/
def strToLower (s : String) : String :=
  String.mk (s.toList.map Char.toLower)

/-- JS `s.trim()` (whitespace in the sense of `Char.isWhitespace`; list-based
for the same reason as `strToLower`). -/
def strTrim (s : String) : String :=
  String.mk (((s.toList.dropWhile Char.isWhitespace).reverse.dropWhile
    Char.isWhitespace).reverse)

/-- JS `x?.trim() || null`. -/
def trimOrNull : Option String → Option String
  | some d => if strTrim d == "" then none else some (strTrim d)
  | none => none

/-- `charsStartWith p s`: does `s` start with `p`? -/
def charsStartWith : List Char → List Char → Bool
  | [], _ => true
  | _ :: _, [] => false
  | p :: ps, c :: cs => p == c && charsStartWith ps cs

/-- `charsContains p s`: does `s` contain `p` as a contiguous run?
(JS `String.prototype.includes`.) -/
def charsContains (pat : List Char) : List Char → Bool
  | [] => charsStartWith pat []
  | c :: cs => charsStartWith pat (c :: cs) || charsContains pat cs

/-- JS `s.includes(pat)`. -/
def strIncludes (s pat : String) : Bool :=
  charsContains pat.toList s.toList

/-- The calendar day of a timestamp: its floor (computed by floor-division so
that proofs can evaluate it; `dayOf_eq_floor` checks it against `⌊·⌋`). -/
def dayOf (d : ℚ) : ℤ :=
  Int.fdiv d.num d.den

/-- Calendar-day equality of two timestamps: Prisma's
`gte: start-of-day, lt: next-day` window test. -/
def dayEq (d t : ℚ) : Bool :=
  dayOf d == dayOf t

/-! ### saveGraph — POST /api/dag/[id] (first document of route.ts) -/

/-- A node of the client's full-state graph, as the handler reads it from the
request body (`node.id`, `node.type`, `node.position`, `node.data.entityId`,
`node.data.category`).  Positions are typed rationals here; a request whose
position fields are not numbers is rejected before the transaction and leaves
the store unchanged. -/
structure ClientNode where
  id : String
  type : Option String
  x : ℚ
  y : ℚ
  entityId : String
  category : Option String
deriving DecidableEq

/-- An edge of the client's full-state graph. -/
structure ClientEdge where
  id : String
  source : String
  target : String
  label : Option String
  relationshipTypeId : Option String
  sourceHandle : Option String
  targetHandle : Option String
deriving DecidableEq

/-- Outcome of the saveGraph handler. -/
inductive SaveResult
  | ok
  | err (status : ℕ) (msg : String)
deriving DecidableEq

/-- Pre-transaction node validation loop: first structural failure wins.
A JS-falsy id or entityId is the empty string here. -/
def validateNodes : List ClientNode → Option (ℕ × String)
  | [] => none
  | cn :: rest =>
    if cn.id == "" then some (400, "Invalid node structure: missing id")
    else if cn.entityId == "" then
      some (400, "Node " ++ cn.id ++ " is missing required entityId")
    else validateNodes rest

/-- Pre-transaction edge validation loop. -/
def validateEdges : List ClientEdge → Option (ℕ × String)
  | [] => none
  | ce :: rest =>
    if ce.id == "" then some (400, "Invalid edge structure: missing id")
    else if ce.source == "" || ce.target == "" then
      some (400, "Edge " ++ ce.id ++ " is missing required source or target")
    else validateEdges rest

/-- `dAGNode.deleteMany({dagId, id: {notIn: sentNodeIds}, type: {not: "root"}})`,
guarded by `sentNodeIds.length > 0`. -/
def deleteMissingNodes (dagId : String) (sentNodeIds : List String) (s : DB) : DB :=
  if sentNodeIds.isEmpty then s
  else { s with nodes := s.nodes.filter (fun n =>
    !(n.dagId == dagId && !sentNodeIds.contains n.id && n.type != "root")) }

/-- `dAGEdge.deleteMany({dagId, id: {notIn: sentEdgeIds}})`, guarded by
`sentEdgeIds.length > 0`. -/
def deleteMissingEdges (dagId : String) (sentEdgeIds : List String) (s : DB) : DB :=
  if sentEdgeIds.isEmpty then s
  else { s with edges := s.edges.filter (fun e =>
    !(e.dagId == dagId && !sentEdgeIds.contains e.id)) }

/-- `entity.roleLink?.name?.toLowerCase() || ''` followed by the
evidence-leader substring test. -/
def isEvidenceLeaderRoleName (roleName : String) : Bool :=
  strIncludes (strToLower roleName) "evidence leader" ||
  strIncludes (strToLower roleName) "evidenceleader"

/-- The role name of an entity's role, `""` when the role row is missing. -/
def roleNameOf (s : DB) (roleId : String) : String :=
  match s.roles.find? (fun r => r.id == roleId) with
  | some r => r.name
  | none => ""

/-- The node type the handler stores, derived from the root flag and the
entity's role — never from the client-sent type of a non-root node. -/
def derivedNodeType (s : DB) (isRootNode : Bool) (entity : Entity) : String :=
  if isRootNode then "root"
  else if isEvidenceLeaderRoleName (roleNameOf s entity.roleId) then "evidenceLeader"
  else "custom"

/-- One iteration of the node upsert loop.  A missing entity throws, aborting
the transaction (`Except.error`).  `dAGNode.upsert({where: {id: node.id}, ...})`
updates only position, category and derived type when the id exists, and
creates the row otherwise. -/
def upsertNode (dagId : String) (cn : ClientNode) (s : DB) : Except String DB :=
  match s.entities.find? (fun e => e.id == cn.entityId) with
  | none => .error ("Entity " ++ cn.entityId ++ " not found for node " ++ cn.id)
  | some entity =>
    let isRootNode := cn.type == some "root"
    let finalX : ℚ := if isRootNode then 0 else cn.x
    let finalY : ℚ := if isRootNode then 0 else cn.y
    let nodeType := derivedNodeType s isRootNode entity
    if s.nodes.any (fun n => n.id == cn.id) then
      .ok { s with nodes := s.nodes.map (fun n =>
        if n.id == cn.id then
          { n with x := finalX, y := finalY, category := orNull cn.category,
                   type := nodeType }
        else n) }
    else
      .ok { s with nodes := s.nodes ++
        [⟨cn.id, dagId, cn.entityId, finalX, finalY, nodeType, orNull cn.category⟩] }

/-- The node upsert loop. -/
def upsertNodes (dagId : String) : List ClientNode → DB → Except String DB
  | [], s => .ok s
  | cn :: rest, s =>
    match upsertNode dagId cn s with
    | .error m => .error m
    | .ok s' => upsertNodes dagId rest s'

/-- One iteration of the edge upsert loop.  `relationshipTypeId || null` is
authoritative: when present the free-text label is cleared.  The update clause
never touches `sourceId`/`targetId`. -/
def upsertEdge (dagId : String) (ce : ClientEdge) (s : DB) : DB :=
  let rel := orNull ce.relationshipTypeId
  let lab := if rel.isSome then none else orNull ce.label
  if s.edges.any (fun e => e.id == ce.id) then
    { s with edges := s.edges.map (fun e =>
      if e.id == ce.id then
        { e with relationshipTypeId := rel, label := lab,
                 sourceHandle := orNull ce.sourceHandle,
                 targetHandle := orNull ce.targetHandle }
      else e) }
  else
    { s with edges := s.edges ++
      [⟨ce.id, dagId, ce.source, ce.target, lab, rel,
        orNull ce.sourceHandle, orNull ce.targetHandle, none⟩] }

/-- The edge upsert loop. -/
def upsertEdges (dagId : String) (ces : List ClientEdge) (s : DB) : DB :=
  ces.foldl (fun acc ce => upsertEdge dagId ce acc) s

/-- POST /api/dag/[id]: full-state reconcile of the client graph against the
store.  The Prisma transaction is all-or-nothing: an error thrown inside the
node loop surfaces as a 500 with the original state (`s`) preserved. -/
def saveGraph (s : DB) (dagId : String) (nodes : List ClientNode)
    (edges : List ClientEdge) : DB × SaveResult :=
  if !s.dags.contains dagId then (s, .err 404 "DAG not found")
  else
    match validateNodes nodes with
    | some e => (s, .err e.1 e.2)
    | none =>
      match validateEdges edges with
      | some e => (s, .err e.1 e.2)
      | none =>
        let sentNodeIds := nodes.map ClientNode.id
        let s1 := deleteMissingNodes dagId sentNodeIds s
        match upsertNodes dagId nodes s1 with
        | .error m => (s, .err 500 m)
        | .ok s2 =>
          let s3 := deleteMissingEdges dagId (edges.map ClientEdge.id) s2
          let s4 := upsertEdges dagId edges s3
          (s4, .ok)

/-! ### createEvent — POST handler (second document of src/unnamed/part_002) -/

/-- The createEvent request body, already parsed.  `date` is
`Option (Option ℚ)`: `none` absent/falsy, `some none` present but unparseable,
`some (some t)` parses to timestamp `t`. -/
structure CreateEventRequest where
  title : String
  description : Option String
  date : Option (Option ℚ)
  seriesDay : Option ℤ
  tagIds : List String
  sourceDagId : Option String
  customTypeName : Option String
  eventTypeId : Option String
  sourceNodeId : Option String
  targetNodeId : Option String
  participantNodeIds : Option (List String)
  createEdge : Bool
  dagId : Option String
deriving DecidableEq

/-- Outcome of the createEvent handler: the created event's id and the id of
the derived edge (when one was created). -/
inductive EventResult
  | ok (eventId : String) (createdEdgeId : Option String)
  | err (status : ℕ) (msg : String)
deriving DecidableEq

/-- Custom event-type resolution: `if (customTypeName && !eventTypeId)` look the
name up and create the type on miss (`newTypeId` standing for the generated
cuid); otherwise keep the supplied `eventTypeId`. -/
def resolveEventType (s : DB) (req : CreateEventRequest) (newTypeId : String) :
    DB × String :=
  if truthyS req.customTypeName && !truthyS req.eventTypeId then
    let ctn := req.customTypeName.getD ""
    match s.eventTypes.find? (fun et => et.name == ctn) with
    | some existingType => (s, existingType.id)
    | none =>
      ({ s with eventTypes :=
          s.eventTypes ++ [⟨newTypeId, strTrim ctn, "HelpCircle", "#6366f1"⟩] },
       newTypeId)
  else (s, req.eventTypeId.getD "")

/-- Sort orders of the events of a graph sharing `t`'s calendar day (Prisma's
day-window filter; a null `date` never matches). -/
def sameDayEventSortOrders (s : DB) (dagId : String) (t : ℚ) : List ℤ :=
  (s.events.filter (fun e => e.dagId == dagId &&
    (match e.date with
     | some d => dayEq d t
     | none => false))).map Event.sortOrder

/-- Sort orders of the events of a graph sharing a series day. -/
def sameSeriesDaySortOrders (s : DB) (dagId : String) (sd : ℤ) : List ℤ :=
  (s.events.filter (fun e => e.dagId == dagId && e.seriesDay == some sd)).map
    Event.sortOrder

/-- `orderBy sortOrder desc, take 1` then `length > 0 ? [0].sortOrder : -1`:
the maximum of the list, `-1` when empty. -/
def maxSortOrder : List ℤ → ℤ
  | [] => -1
  | x :: xs => xs.foldl max x

/-- The handler's sortOrder assignment: same-day maximum plus one when a date
is given, same-series-day maximum plus one when only a series day is given,
`0` otherwise. -/
def computeSortOrder (s : DB) (dagId : String) (eventDate : Option ℚ)
    (seriesDay : Option ℤ) : ℤ :=
  match eventDate with
  | some t => maxSortOrder (sameDayEventSortOrders s dagId t) + 1
  | none =>
    match seriesDay with
    | some sd => maxSortOrder (sameSeriesDaySortOrders s dagId sd) + 1
    | none => 0

/-- The ordered-pair lookup predicate of the derived-edge check:
`dAGEdge.findFirst({where: {dagId, sourceId, targetId}})`. -/
def edgePairMatch (dagId sourceId targetId : String) (e : DAGEdge) : Bool :=
  e.dagId == dagId && e.sourceId == sourceId && e.targetId == targetId

/-- Derived-edge creation after the event row exists: on `createEdge` with both
endpoints, look up the ordered pair in the graph; on miss create the edge with
the event title as label and back-fill the event's `createdEdgeId`; on hit do
nothing (idempotent). -/
def deriveEventEdge (s : DB) (req : CreateEventRequest)
    (dagId newEventId newEdgeId : String) : DB × Option String :=
  if req.createEdge && truthyS req.sourceNodeId && truthyS req.targetNodeId then
    let sid := req.sourceNodeId.getD ""
    let tid := req.targetNodeId.getD ""
    match s.edges.find? (edgePairMatch dagId sid tid) with
    | some _ => (s, none)
    | none =>
      let newEdge : DAGEdge :=
        ⟨newEdgeId, dagId, sid, tid, some (strTrim req.title), none, none, none,
         some newEventId⟩
      let s1 := { s with edges := s.edges ++ [newEdge] }
      let s2 := { s1 with events := s1.events.map (fun e =>
        if e.id == newEventId then { e with createdEdgeId := some newEdgeId }
        else e) }
      (s2, some newEdgeId)
  else (s, none)

/-- POST createEvent (the `seriesDay`-aware variant).  Guards run in source
order; the custom event type is resolved (and possibly created) before the date
parse, so an invalid date leaves a created custom type behind — the handler has
no transaction.  `newTypeId`, `newEventId`, `newEdgeId` stand for the generated
cuids. -/
def createEvent (s : DB) (req : CreateEventRequest)
    (newTypeId newEventId newEdgeId : String) : DB × EventResult :=
  if strTrim req.title == "" then (s, .err 400 "Event title is required")
  else if !req.date.isSome && !truthySeriesDay req.seriesDay &&
      !truthyS req.sourceDagId then
    (s, .err 400 "Event date or series day is required")
  else if !truthyS req.eventTypeId && !truthyS req.customTypeName then
    (s, .err 400 "Event type is required")
  else if !truthyS req.dagId then (s, .err 400 "DAG ID is required")
  else if !truthyS req.sourceNodeId && !truthyS req.targetNodeId &&
      (req.participantNodeIds.getD []).isEmpty then
    (s, .err 400 "At least one node must be linked to the event")
  else if truthyS req.sourceNodeId &&
      (s.nodes.find? (fun n =>
        some n.id == req.sourceNodeId && n.dagId == req.dagId.getD "")).isNone then
    (s, .err 400 "Source node not found in this DAG")
  else if truthyS req.targetNodeId &&
      (s.nodes.find? (fun n =>
        some n.id == req.targetNodeId && n.dagId == req.dagId.getD "")).isNone then
    (s, .err 400 "Target node not found in this DAG")
  else
    let dagId := req.dagId.getD ""
    let tr := resolveEventType s req newTypeId
    if req.date == some none then (tr.1, .err 400 "Invalid date format")
    else
      let eventDate : Option ℚ := req.date.join
      let newSortOrder := computeSortOrder tr.1 dagId eventDate req.seriesDay
      let participants :=
        (req.participantNodeIds.getD []).filter (fun i => strTrim i != "")
      let ev : Event :=
        ⟨newEventId, dagId, strTrim req.title, trimOrNull req.description,
         eventDate, req.seriesDay, newSortOrder, tr.2, orNull req.sourceDagId,
         orNull req.sourceNodeId, orNull req.targetNodeId, participants, none⟩
      let s2 := { tr.1 with events := tr.1.events ++ [ev] }
      let der := deriveEventEdge s2 req dagId newEventId newEdgeId
      (der.1, .ok newEventId der.2)

/-! ### reorderEvents — POST handler (third document of route.ts) -/

/-- The reorder request body. -/
structure ReorderRequest where
  dagId : Option String
  date : Option (Option ℚ)
  eventIds : Option (List String)
deriving DecidableEq

/-- Outcome of the reorder handler. -/
inductive ReorderResult
  | ok
  | err (status : ℕ) (msg : String)
deriving DecidableEq

/-- The indexed update loop: `event.update({where: {id}, data: {sortOrder:
index}})` for each listed id, indices counting from `k`. -/
def reorderGo (k : ℕ) : List String → List Event → List Event
  | [], events => events
  | a :: rest, events =>
    reorderGo (k + 1) rest (events.map (fun e =>
      if e.id == a then { e with sortOrder := (k : ℤ) } else e))

/-- The events the reorder handler finds: id in the supplied list, same graph,
same calendar day. -/
def reorderFound (s : DB) (dagId : String) (t : ℚ) (eventIds : List String) :
    List Event :=
  s.events.filter (fun e =>
    eventIds.contains e.id && e.dagId == dagId &&
    (match e.date with
     | some d => dayEq d t
     | none => false))

/-- POST reorder: rewrite sortOrder to list index for the listed events of one
day; reject when the count of matching events differs from the count of
supplied ids. -/
def reorderEvents (s : DB) (req : ReorderRequest) : DB × ReorderResult :=
  if !truthyS req.dagId || !req.date.isSome || !req.eventIds.isSome then
    (s, .err 400 "dagId, date, and eventIds array are required")
  else if req.date == some none then (s, .err 400 "Invalid date format")
  else
    match req.date.join with
    | none => (s, .err 400 "Invalid date format")
    | some t =>
      let dagId := req.dagId.getD ""
      let eventIds := req.eventIds.getD []
      let found := reorderFound s dagId t eventIds
      if found.length != eventIds.length then
        (s, .err 400 "Some events not found or not on the specified date")
      else
        ({ s with events := reorderGo 0 eventIds s.events }, .ok)

/-! ### createEntity — POST /api/entities -/

/-- The createEntity request body. -/
structure CreateEntityRequest where
  name : String
  roleId : String
  entityType : Option String
  description : Option String
deriving DecidableEq

/-- Outcome of the createEntity handler. -/
inductive EntityResult
  | ok (entityId : String)
  | err (status : ℕ) (msg : String)
deriving DecidableEq

/-- The zod enum for `entityType` (optional, defaulting to `"human"`). -/
def validEntityType : Option String → Bool
  | none => true
  | some t => t == "human" || t == "company" || t == "organization"

/-- A hexadecimal digit, uppercase. -/
def hexDigit (n : ℕ) : Char :=
  if n < 10 then Char.ofNat (48 + n) else Char.ofNat (55 + n)

/-- Percent-encoding of one byte. -/
def percentByte (b : ℕ) : List Char :=
  ['%', hexDigit (b / 16), hexDigit (b % 16)]

/-- The UTF-8 bytes of a character. -/
def utf8Bytes (c : Char) : List ℕ :=
  let n := c.toNat
  if n < 128 then [n]
  else if n < 2048 then [192 + n / 64, 128 + n % 64]
  else if n < 65536 then [224 + n / 4096, 128 + n / 64 % 64, 128 + n % 64]
  else [240 + n / 262144, 128 + n / 4096 % 64, 128 + n / 64 % 64, 128 + n % 64]

/-- A character JS `encodeURIComponent` leaves unescaped. -/
def isUnreservedURIChar (c : Char) : Bool :=
  (c ≥ 'A' && c ≤ 'Z') || (c ≥ 'a' && c ≤ 'z') || (c ≥ '0' && c ≤ '9') ||
  c == '-' || c == '_' || c == '.' || c == '!' || c == '~' || c == '*' ||
  c == '\'' || c == '(' || c == ')'

/-- JS `encodeURIComponent`. -/
def encodeURIComponent (s : String) : String :=
  String.mk ((s.toList.map (fun c =>
    if isUnreservedURIChar c then [c]
    else ((utf8Bytes c).map percentByte).flatten)).flatten)

/-- The default avatar URL the handler derives from the entity name. -/
def avatarUrl (name : String) : String :=
  "https://ui-avatars.com/api/?name=" ++ encodeURIComponent name ++
    "&background=random"

/-- POST /api/entities: zod validation (`name` at least 2 characters,
`entityType` in its enum), explicit role lookup, then creation with the derived
avatar.  A zod failure is caught and surfaced as a 400 before anything is
looked up or written. -/
def createEntity (s : DB) (req : CreateEntityRequest) (newEntityId : String) :
    DB × EntityResult :=
  if req.name.length < 2 || !validEntityType req.entityType then
    (s, .err 400 "Invalid data")
  else
    match s.roles.find? (fun r => r.id == req.roleId) with
    | none => (s, .err 400 "Invalid role ID")
    | some _ =>
      let e : Entity :=
        ⟨newEntityId, req.name, req.roleId, req.entityType.getD "human",
         req.description, some (avatarUrl req.name)⟩
      ({ s with entities := s.entities ++ [e] }, .ok newEntityId)

/-! ### Positioning heuristic (third document of src/unnamed/part_006) -/

/-- The canvas viewport (translation and zoom). -/
structure Viewport where
  x : ℚ
  y : ℚ
  zoom : ℚ
deriving DecidableEq

/-- `calculateSmartPosition`.  `window.innerWidth`/`window.innerHeight` are
ambient browser globals in the source and explicit arguments here.  The
`_allNodes` argument is unused by the source as well. -/
def calculateSmartPosition (relatedNodes : List Pos) (_allNodes : List Pos)
    (viewport : Option Viewport) (innerWidth innerHeight : ℚ) : Pos :=
  match relatedNodes with
  | [] =>
    match viewport with
    | some v =>
      ⟨-v.x / v.zoom + innerWidth / 2 / v.zoom,
       -v.y / v.zoom + innerHeight / 2 / v.zoom⟩
    | none => ⟨0, 0⟩
  | [relatedNode] =>
    let offset : ℚ := 300
    ⟨relatedNode.x + offset, relatedNode.y + offset * (1 / 2)⟩
  | p :: q :: rest =>
    let ps := p :: q :: rest
    let minX := (ps.map Pos.x).foldl min p.x
    let maxX := (ps.map Pos.x).foldl max p.x
    let minY := (ps.map Pos.y).foldl min p.y
    let maxY := (ps.map Pos.y).foldl max p.y
    let centerX := (minX + maxX) / 2
    let centerY := (minY + maxY) / 2
    let offset : ℚ := 250
    ⟨centerX + offset, centerY + offset⟩

/-- `hasPositionConflict`: some node lies strictly within `minDistance`.  The
source compares `sqrt(dx²+dy²) < minDistance`; both sides are squared here,
which is equivalent for the nonnegative distances in use (the only caller
passes the default 200). -/
def hasPositionConflict (position : Pos) (allNodes : List Pos)
    (minDistance : ℚ) : Bool :=
  allNodes.any (fun node =>
    let dx := node.x - position.x
    let dy := node.y - position.y
    decide (dx * dx + dy * dy < minDistance * minDistance))

/-- The spiral candidate for attempt `k`: the source computes
`radius = 150 * (1 + floor(k / 8))` and the angle `(k * 45)·π/180`; the
transcendental `Math.cos`/`Math.sin` at that angle are abstracted as
`cosf k`/`sinf k`. -/
def spiralCandidate (cosf sinf : ℕ → ℚ) (desired : Pos) (k : ℕ) : Pos :=
  let radius : ℚ := 150 * ((1 + k / 8 : ℕ) : ℚ)
  ⟨desired.x + radius * cosf k, desired.y + radius * sinf k⟩

/-- The `while (hasPositionConflict && attempts < maxAttempts)` loop; the fuel
is `maxAttempts - attempts`, so the guard `attempts < maxAttempts` is
`fuel > 0`. -/
def fncGo (cosf sinf : ℕ → ℚ) (desired : Pos) (allNodes : List Pos) :
    ℕ → ℕ → Pos → Pos
  | 0, _, position => position
  | fuel + 1, attempts, position =>
    if hasPositionConflict position allNodes 200 then
      fncGo cosf sinf desired allNodes fuel (attempts + 1)
        (spiralCandidate cosf sinf desired attempts)
    else position

/-- `findNonConflictingPosition` (the source default for `maxAttempts` is 10,
for the conflict distance 200). -/
def findNonConflictingPosition (cosf sinf : ℕ → ℚ) (desired : Pos)
    (allNodes : List Pos) (maxAttempts : ℕ) : Pos :=
  fncGo cosf sinf desired allNodes maxAttempts 0 desired

/-- Is this node the (one) root node of the graph?  `isRootOf` reads the
persisted `type` column, the handlers' own root test. -/
def isRootOf (dagId : String) (n : DAGNode) : Bool :=
  n.dagId == dagId && n.type == "root"

/-- Loop-iteration counter for the same while loop (a proof device: its value
is the number of executed iterations of `fncGo`). -/
def fncCount (cosf sinf : ℕ → ℚ) (desired : Pos) (allNodes : List Pos) :
    ℕ → ℕ → Pos → ℕ
  | 0, _, _ => 0
  | fuel + 1, attempts, position =>
    if hasPositionConflict position allNodes 200 then
      fncCount cosf sinf desired allNodes fuel (attempts + 1)
        (spiralCandidate cosf sinf desired attempts) + 1
    else 0

/-! ## Sanity lemmas about the embedding -/

/-- The computable calendar-day function agrees with the mathematical floor. -/
theorem dayOf_eq_floor (d : ℚ) : dayOf d = ⌊d⌋ := by
  rw [Rat.floor_def, dayOf, Int.fdiv_eq_ediv _ (Int.ofNat_nonneg d.den)]

/-! ## Supporting lemmas -/

theorem fncCount_le (cosf sinf : ℕ → ℚ) (desired : Pos) (allNodes : List Pos) :
    ∀ fuel attempts pos,
      fncCount cosf sinf desired allNodes fuel attempts pos ≤ fuel := by
  intro fuel
  induction fuel with
  | zero => intro attempts pos; simp [fncCount]
  | succ f ih =>
    intro attempts pos
    rw [fncCount]
    split
    · exact Nat.succ_le_succ (ih _ _)
    · exact Nat.zero_le _

theorem fncGo_exhausted (cosf sinf : ℕ → ℚ) (desired : Pos)
    (allNodes : List Pos) :
    ∀ fuel attempts pos, 0 < fuel →
      hasPositionConflict pos allNodes 200 = true →
      (∀ k, attempts ≤ k → k + 1 < attempts + fuel →
        hasPositionConflict (spiralCandidate cosf sinf desired k) allNodes 200
          = true) →
      fncGo cosf sinf desired allNodes fuel attempts pos =
        spiralCandidate cosf sinf desired (attempts + fuel - 1) := by
  intro fuel
  induction fuel with
  | zero => intro attempts pos h; omega
  | succ f ih =>
    intro attempts pos _ hpos hcand
    rw [fncGo, if_pos hpos]
    rcases Nat.eq_zero_or_pos f with hf | hf
    · subst hf
      have ha : attempts + (0 + 1) - 1 = attempts := by omega
      rw [fncGo, ha]
    · rw [ih (attempts + 1) _ hf
        (hcand attempts le_rfl (by omega))
        (fun k hk hk2 => hcand k (by omega) (by omega))]
      congr 1
      omega

theorem resolveEventType_nodes (s : DB) (req : CreateEventRequest)
    (ntid : String) : (resolveEventType s req ntid).1.nodes = s.nodes := by
  unfold resolveEventType
  split
  · dsimp only
    split <;> rfl
  · rfl

theorem resolveEventType_edges (s : DB) (req : CreateEventRequest)
    (ntid : String) : (resolveEventType s req ntid).1.edges = s.edges := by
  unfold resolveEventType
  split
  · dsimp only
    split <;> rfl
  · rfl

theorem resolveEventType_events (s : DB) (req : CreateEventRequest)
    (ntid : String) : (resolveEventType s req ntid).1.events = s.events := by
  unfold resolveEventType
  split
  · dsimp only
    split <;> rfl
  · rfl

theorem deriveEventEdge_nodes (s : DB) (req : CreateEventRequest)
    (dagId nev ned : String) :
    (deriveEventEdge s req dagId nev ned).1.nodes = s.nodes := by
  unfold deriveEventEdge
  split
  · dsimp only
    split <;> rfl
  · rfl

theorem deriveEventEdge_events_length (s : DB) (req : CreateEventRequest)
    (dagId nev ned : String) :
    (deriveEventEdge s req dagId nev ned).1.events.length = s.events.length := by
  unfold deriveEventEdge
  split
  · dsimp only
    split
    · rfl
    · simp
  · rfl

/-- Each event survives derived-edge creation with its id and sortOrder
intact: it is either untouched or merely back-filled with `createdEdgeId`. -/
theorem deriveEventEdge_events_mem (s : DB) (req : CreateEventRequest)
    (dagId nev ned : String) (e : Event) (he : e ∈ s.events) :
    e ∈ (deriveEventEdge s req dagId nev ned).1.events ∨
    { e with createdEdgeId := some ned } ∈
      (deriveEventEdge s req dagId nev ned).1.events := by
  unfold deriveEventEdge
  split
  · dsimp only
    split
    · exact Or.inl he
    · by_cases hid : (e.id == nev) = true
      · exact Or.inr (List.mem_map.mpr ⟨e, he, by simp [hid]⟩)
      · exact Or.inl (List.mem_map.mpr ⟨e, he, by simp [hid]⟩)
  · exact Or.inl he

/-- After derived-edge creation the edge list is unchanged or extended by one
edge for an ordered pair that had no edge before. -/
theorem deriveEventEdge_edges_cases (s : DB) (req : CreateEventRequest)
    (dagId nev ned : String) :
    (deriveEventEdge s req dagId nev ned).1.edges = s.edges ∨
    (s.edges.find? (edgePairMatch dagId (req.sourceNodeId.getD "")
        (req.targetNodeId.getD "")) = none ∧
     (deriveEventEdge s req dagId nev ned).1.edges = s.edges ++
       [⟨ned, dagId, req.sourceNodeId.getD "", req.targetNodeId.getD "",
         some (strTrim req.title), none, none, none, some nev⟩]) := by
  unfold deriveEventEdge
  split
  · dsimp only
    split
    · exact Or.inl rfl
    · exact Or.inr ⟨by assumption, rfl⟩
  · exact Or.inl rfl

/-- When an edge for the ordered pair already exists, derived-edge creation
does nothing. -/
theorem deriveEventEdge_hit (s : DB) (req : CreateEventRequest)
    (dagId nev ned : String)
    (hg : (req.createEdge && truthyS req.sourceNodeId &&
      truthyS req.targetNodeId) = true)
    (hfind : (s.edges.find? (edgePairMatch dagId (req.sourceNodeId.getD "")
      (req.targetNodeId.getD ""))).isSome = true) :
    deriveEventEdge s req dagId nev ned = (s, none) := by
  obtain ⟨ed, hed⟩ := Option.isSome_iff_exists.mp hfind
  unfold deriveEventEdge
  rw [if_pos hg]
  simp only [hed]

/-- When the edge-creation guard holds, the post-state contains an edge for
the requested ordered pair (found or freshly created). -/
theorem deriveEventEdge_pair_exists (s : DB) (req : CreateEventRequest)
    (dagId nev ned : String)
    (hg : (req.createEdge && truthyS req.sourceNodeId &&
      truthyS req.targetNodeId) = true) :
    ∃ ed ∈ (deriveEventEdge s req dagId nev ned).1.edges,
      edgePairMatch dagId (req.sourceNodeId.getD "")
        (req.targetNodeId.getD "") ed = true := by
  unfold deriveEventEdge
  rw [if_pos hg]
  cases hfind : s.edges.find? (edgePairMatch dagId (req.sourceNodeId.getD "")
      (req.targetNodeId.getD "")) with
  | none =>
    simp only [hfind]
    refine ⟨_, List.mem_append_right _ (List.mem_singleton_self _), ?_⟩
    simp [edgePairMatch]
  | some ed =>
    simp only [hfind]
    exact ⟨ed, List.mem_of_find?_eq_some hfind, List.find?_some hfind⟩

/-- A successful createEvent call implies that every guard passed, that the
returned event id is the generated one, and that exactly one event row was
appended while the node table was untouched. -/
theorem createEvent_ok_guards (s : DB) (req : CreateEventRequest)
    (a b c : String) (s' : DB) (eid : String) (ce : Option String)
    (h : createEvent s req a b c = (s', EventResult.ok eid ce)) :
    (strTrim req.title == "") = false ∧
    (!req.date.isSome && !truthySeriesDay req.seriesDay &&
      !truthyS req.sourceDagId) = false ∧
    (!truthyS req.eventTypeId && !truthyS req.customTypeName) = false ∧
    truthyS req.dagId = true ∧
    (!truthyS req.sourceNodeId && !truthyS req.targetNodeId &&
      (req.participantNodeIds.getD []).isEmpty) = false ∧
    (truthyS req.sourceNodeId && (s.nodes.find? (fun n =>
      some n.id == req.sourceNodeId &&
      n.dagId == req.dagId.getD "")).isNone) = false ∧
    (truthyS req.targetNodeId && (s.nodes.find? (fun n =>
      some n.id == req.targetNodeId &&
      n.dagId == req.dagId.getD "")).isNone) = false ∧
    req.date ≠ some none ∧ eid = b ∧
    s'.nodes = s.nodes ∧ s'.events.length = s.events.length + 1 := by
  unfold createEvent at h
  repeat' split at h
  all_goals simp at h
  rename_i h1 h2 h3 h4 h5 h6 h7 h8
  obtain ⟨hs, hbid, hce⟩ := h
  refine ⟨by simpa using h1, by simpa using h2, by simpa using h3,
    by simpa using h4, by simpa using h5, by simpa using h6,
    by simpa using h7, by simpa using h8, hbid.symm, ?_, ?_⟩
  · rw [← hs, deriveEventEdge_nodes]
    exact resolveEventType_nodes s req a
  · rw [← hs, deriveEventEdge_events_length]
    simp [resolveEventType_events]

/-- The sortOrder computation depends only on the event table. -/
theorem computeSortOrder_congr (s1 s2 : DB) (h : s1.events = s2.events)
    (dagId : String) (eventDate : Option ℚ) (seriesDay : Option ℤ) :
    computeSortOrder s1 dagId eventDate seriesDay =
      computeSortOrder s2 dagId eventDate seriesDay := by
  unfold computeSortOrder sameDayEventSortOrders sameSeriesDaySortOrders
  rw [h]

/-- A successful createEvent call puts an event with the generated id and the
computed sortOrder into the store. -/
theorem createEvent_ok_event_mem (s : DB) (req : CreateEventRequest)
    (a b c : String) (s' : DB) (ce : Option String)
    (h : createEvent s req a b c = (s', EventResult.ok b ce)) :
    ∃ ev ∈ s'.events, ev.id = b ∧
      ev.sortOrder =
        computeSortOrder s (req.dagId.getD "") req.date.join req.seriesDay := by
  unfold createEvent at h
  repeat' split at h
  all_goals try dsimp only at h
  all_goals rw [Prod.mk.injEq] at h
  all_goals obtain ⟨h1x, h2x⟩ := h
  all_goals cases h2x
  subst h1x
  have hcong : computeSortOrder (resolveEventType s req a).1 (req.dagId.getD "")
      req.date.join req.seriesDay =
      computeSortOrder s (req.dagId.getD "") req.date.join req.seriesDay :=
    computeSortOrder_congr _ _ (resolveEventType_events s req a) _ _ _
  rcases deriveEventEdge_events_mem
    { (resolveEventType s req a).1 with
        events := (resolveEventType s req a).1.events ++
          [⟨b, req.dagId.getD "", strTrim req.title, trimOrNull req.description,
            req.date.join, req.seriesDay,
            computeSortOrder (resolveEventType s req a).1 (req.dagId.getD "")
              req.date.join req.seriesDay,
            (resolveEventType s req a).2, orNull req.sourceDagId,
            orNull req.sourceNodeId, orNull req.targetNodeId,
            (req.participantNodeIds.getD []).filter (fun i => strTrim i != ""),
            none⟩] }
    req (req.dagId.getD "") b c
    ⟨b, req.dagId.getD "", strTrim req.title, trimOrNull req.description,
      req.date.join, req.seriesDay,
      computeSortOrder (resolveEventType s req a).1 (req.dagId.getD "")
        req.date.join req.seriesDay,
      (resolveEventType s req a).2, orNull req.sourceDagId,
      orNull req.sourceNodeId, orNull req.targetNodeId,
      (req.participantNodeIds.getD []).filter (fun i => strTrim i != ""),
      none⟩
    (List.mem_append_right _ (List.mem_singleton_self _)) with hin | hin
  · exact ⟨_, hin, rfl, hcong⟩
  · exact ⟨_, hin, rfl, hcong⟩

/-- When the edge-creation guard is off (or an endpoint is missing), derived
edge creation does nothing. -/
theorem deriveEventEdge_skip (s : DB) (req : CreateEventRequest)
    (dagId nev ned : String)
    (hg : (req.createEdge && truthyS req.sourceNodeId &&
      truthyS req.targetNodeId) = false) :
    deriveEventEdge s req dagId nev ned = (s, none) := by
  unfold deriveEventEdge
  simp only [hg, Bool.false_eq_true, if_false]

/-- The node table is untouched by createEvent, whatever the outcome. -/
theorem createEvent_nodes_eq (s : DB) (req : CreateEventRequest)
    (a b c : String) : (createEvent s req a b c).1.nodes = s.nodes := by
  unfold createEvent
  repeat' split
  all_goals try rfl
  all_goals try exact resolveEventType_nodes s req a
  all_goals try dsimp only
  rw [deriveEventEdge_nodes]
  exact resolveEventType_nodes s req a

/-- createEvent either leaves the edge table unchanged or appends exactly one
derived edge for an ordered pair that previously had none. -/
theorem createEvent_edges_cases (s : DB) (req : CreateEventRequest)
    (a b c : String) :
    (createEvent s req a b c).1.edges = s.edges ∨
    (s.edges.find? (edgePairMatch (req.dagId.getD "")
        (req.sourceNodeId.getD "") (req.targetNodeId.getD "")) = none ∧
     (createEvent s req a b c).1.edges = s.edges ++
       [⟨c, req.dagId.getD "", req.sourceNodeId.getD "",
         req.targetNodeId.getD "", some (strTrim req.title), none, none, none,
         some b⟩]) := by
  unfold createEvent
  repeat' split
  all_goals try exact Or.inl rfl
  all_goals try exact Or.inl (resolveEventType_edges s req a)
  all_goals try dsimp only
  have hXE := resolveEventType_edges s req a
  rcases deriveEventEdge_edges_cases
    { (resolveEventType s req a).1 with
        events := (resolveEventType s req a).1.events ++
          [⟨b, req.dagId.getD "", strTrim req.title, trimOrNull req.description,
            req.date.join, req.seriesDay,
            computeSortOrder (resolveEventType s req a).1 (req.dagId.getD "")
              req.date.join req.seriesDay,
            (resolveEventType s req a).2, orNull req.sourceDagId,
            orNull req.sourceNodeId, orNull req.targetNodeId,
            (req.participantNodeIds.getD []).filter (fun i => strTrim i != ""),
            none⟩] }
    req (req.dagId.getD "") b c with h | ⟨hf, h⟩
  · exact Or.inl (h.trans hXE)
  · refine Or.inr ⟨?_, h.trans (congrArg (· ++ [_]) hXE)⟩
    rw [← hXE]
    exact hf

/-- A successful createEvent call whose edge-creation guard holds leaves an
edge for the requested ordered pair in the store. -/
theorem createEvent_ok_pair (s : DB) (req : CreateEventRequest)
    (a b c : String) (s' : DB) (ce : Option String)
    (hg : (req.createEdge && truthyS req.sourceNodeId &&
      truthyS req.targetNodeId) = true)
    (h : createEvent s req a b c = (s', EventResult.ok b ce)) :
    ∃ ed ∈ s'.edges, edgePairMatch (req.dagId.getD "")
      (req.sourceNodeId.getD "") (req.targetNodeId.getD "") ed = true := by
  unfold createEvent at h
  repeat' split at h
  all_goals try dsimp only at h
  all_goals rw [Prod.mk.injEq] at h
  all_goals obtain ⟨h1x, h2x⟩ := h
  all_goals cases h2x
  subst h1x
  exact deriveEventEdge_pair_exists _ req (req.dagId.getD "") b c hg

/-- With every guard true of the store, createEvent succeeds (with the
generated event id). -/
theorem createEvent_guards_ok (s : DB) (req : CreateEventRequest)
    (a b c : String)
    (g1 : (strTrim req.title == "") = false)
    (g2 : (!req.date.isSome && !truthySeriesDay req.seriesDay &&
      !truthyS req.sourceDagId) = false)
    (g3 : (!truthyS req.eventTypeId && !truthyS req.customTypeName) = false)
    (g4 : truthyS req.dagId = true)
    (g5 : (!truthyS req.sourceNodeId && !truthyS req.targetNodeId &&
      (req.participantNodeIds.getD []).isEmpty) = false)
    (g6 : (truthyS req.sourceNodeId && (s.nodes.find? (fun n =>
      some n.id == req.sourceNodeId &&
      n.dagId == req.dagId.getD "")).isNone) = false)
    (g7 : (truthyS req.targetNodeId && (s.nodes.find? (fun n =>
      some n.id == req.targetNodeId &&
      n.dagId == req.dagId.getD "")).isNone) = false)
    (g8 : req.date ≠ some none) :
    ∃ s' ce, createEvent s req a b c = (s', EventResult.ok b ce) := by
  have g8b : (req.date == some none) = false := by simp [g8]
  simp only [createEvent, g1, g2, g3, g4, g5, g6, g7, g8b, Bool.not_true,
    Bool.false_eq_true, eq_self_iff_true, if_false, if_true]
  exact ⟨_, _, rfl⟩

/-- A successful createEvent call finding an existing edge for its ordered
pair creates no edge: the returned `createdEdge` is null and the edge table is
unchanged. -/
theorem createEvent_ok_edges_of_existing (s : DB) (req : CreateEventRequest)
    (a b c : String) (s' : DB) (ce : Option String)
    (hex : (s.edges.find? (edgePairMatch (req.dagId.getD "")
      (req.sourceNodeId.getD "") (req.targetNodeId.getD ""))).isSome = true)
    (h : createEvent s req a b c = (s', EventResult.ok b ce)) :
    ce = none ∧ s'.edges = s.edges := by
  unfold createEvent at h
  repeat' split at h
  all_goals try dsimp only at h
  all_goals rw [Prod.mk.injEq] at h
  all_goals obtain ⟨h1x, h2x⟩ := h
  all_goals cases h2x
  subst h1x
  have hex2 := hex
  rw [← resolveEventType_edges s req a] at hex2
  by_cases hg : (req.createEdge && truthyS req.sourceNodeId &&
    truthyS req.targetNodeId) = true
  · have hder := deriveEventEdge_hit
      { (resolveEventType s req a).1 with
          events := (resolveEventType s req a).1.events ++
            [⟨b, req.dagId.getD "", strTrim req.title,
              trimOrNull req.description, req.date.join, req.seriesDay,
              computeSortOrder (resolveEventType s req a).1 (req.dagId.getD "")
                req.date.join req.seriesDay,
              (resolveEventType s req a).2, orNull req.sourceDagId,
              orNull req.sourceNodeId, orNull req.targetNodeId,
              (req.participantNodeIds.getD []).filter
                (fun i => strTrim i != ""),
              none⟩] }
      req (req.dagId.getD "") b c hg hex2
    rw [hder]
    exact ⟨rfl, resolveEventType_edges s req a⟩
  · rw [Bool.not_eq_true] at hg
    have hder := deriveEventEdge_skip
      { (resolveEventType s req a).1 with
          events := (resolveEventType s req a).1.events ++
            [⟨b, req.dagId.getD "", strTrim req.title,
              trimOrNull req.description, req.date.join, req.seriesDay,
              computeSortOrder (resolveEventType s req a).1 (req.dagId.getD "")
                req.date.join req.seriesDay,
              (resolveEventType s req a).2, orNull req.sourceDagId,
              orNull req.sourceNodeId, orNull req.targetNodeId,
              (req.participantNodeIds.getD []).filter
                (fun i => strTrim i != ""),
              none⟩] }
      req (req.dagId.getD "") b c hg
    rw [hder]
    exact ⟨rfl, resolveEventType_edges s req a⟩

theorem upsertNode_ok_fields (dagId : String) (cn : ClientNode) (s s' : DB)
    (h : upsertNode dagId cn s = .ok s') :
    s'.entities = s.entities ∧ s'.roles = s.roles ∧ s'.edges = s.edges := by
  unfold upsertNode at h
  split at h
  · cases h
  · dsimp only at h
    split at h
    · cases h
      exact ⟨rfl, rfl, rfl⟩
    · cases h
      exact ⟨rfl, rfl, rfl⟩

theorem upsertNodes_ok_fields (dagId : String) :
    ∀ (ns : List ClientNode) (s s' : DB), upsertNodes dagId ns s = .ok s' →
      s'.entities = s.entities ∧ s'.roles = s.roles ∧ s'.edges = s.edges := by
  intro ns
  induction ns with
  | nil =>
    intro s s' h
    cases h
    exact ⟨rfl, rfl, rfl⟩
  | cons cn rest ih =>
    intro s s' h
    rw [upsertNodes] at h
    split at h
    · cases h
    · rename_i s1 hstep
      obtain ⟨e1, r1, d1⟩ := upsertNode_ok_fields dagId cn s s1 hstep
      obtain ⟨e2, r2, d2⟩ := ih s1 s' h
      exact ⟨e2.trans e1, r2.trans r1, d2.trans d1⟩

theorem deleteMissingNodes_fields (dagId : String) (ids : List String)
    (s : DB) :
    (deleteMissingNodes dagId ids s).entities = s.entities ∧
    (deleteMissingNodes dagId ids s).roles = s.roles ∧
    (deleteMissingNodes dagId ids s).edges = s.edges := by
  unfold deleteMissingNodes
  split <;> exact ⟨rfl, rfl, rfl⟩

theorem deleteMissingEdges_nodes (dagId : String) (ids : List String)
    (s : DB) : (deleteMissingEdges dagId ids s).nodes = s.nodes := by
  unfold deleteMissingEdges
  split <;> rfl

theorem upsertEdge_nodes (dagId : String) (ce : ClientEdge) (s : DB) :
    (upsertEdge dagId ce s).nodes = s.nodes := by
  unfold upsertEdge
  dsimp only
  split <;> rfl

theorem upsertEdges_nodes (dagId : String) :
    ∀ (ces : List ClientEdge) (s : DB),
      (upsertEdges dagId ces s).nodes = s.nodes
  | [], _ => rfl
  | ce :: rest, s => by
    show (upsertEdges dagId rest (upsertEdge dagId ce s)).nodes = s.nodes
    rw [upsertEdges_nodes dagId rest _]
    exact upsertEdge_nodes dagId ce s

theorem deleteMissingNodes_keep (dagId : String) (ids : List String) (s : DB)
    (n : DAGNode) (hn : n ∈ s.nodes) (hid : n.id ∈ ids) :
    n ∈ (deleteMissingNodes dagId ids s).nodes := by
  unfold deleteMissingNodes
  split
  · exact hn
  · refine List.mem_filter.mpr ⟨hn, ?_⟩
    simp
    exact Or.inl (Or.inr hid)

theorem deleteMissingEdges_keep (dagId : String) (ids : List String) (s : DB)
    (e : DAGEdge) (he : e ∈ s.edges) (hid : e.id ∈ ids) :
    e ∈ (deleteMissingEdges dagId ids s).edges := by
  unfold deleteMissingEdges
  split
  · exact he
  · refine List.mem_filter.mpr ⟨he, ?_⟩
    simp
    exact Or.inr hid

/-- A persisted node whose id differs from the processed client node survives
one upsert iteration unchanged. -/
theorem upsertNode_keep (dagId : String) (cn : ClientNode) (s s1 : DB)
    (hstep : upsertNode dagId cn s = .ok s1) (n : DAGNode) (hn : n ∈ s.nodes)
    (hne : cn.id ≠ n.id) : n ∈ s1.nodes := by
  have hb : (n.id == cn.id) = false := by
    exact beq_eq_false_iff_ne.mpr (Ne.symm hne)
  unfold upsertNode at hstep
  split at hstep
  · cases hstep
  · dsimp only at hstep
    split at hstep
    · cases hstep
      exact List.mem_map.mpr ⟨n, hn, by simp [hb]⟩
    · cases hstep
      exact List.mem_append_left _ hn

theorem upsertNodes_keep (dagId : String) :
    ∀ (ns : List ClientNode) (s s' : DB), upsertNodes dagId ns s = .ok s' →
      ∀ n ∈ s.nodes, (∀ cn ∈ ns, cn.id ≠ n.id) → n ∈ s'.nodes := by
  intro ns
  induction ns with
  | nil =>
    intro s s' h n hn _
    cases h
    exact hn
  | cons cn rest ih =>
    intro s s' h n hn hni
    rw [upsertNodes] at h
    split at h
    · cases h
    · rename_i s1 hstep
      exact ih s1 s' h n
        (upsertNode_keep dagId cn s s1 hstep n hn
          (hni cn (List.mem_cons_self _ _)))
        (fun c hc => hni c (List.mem_cons_of_mem _ hc))

/-- The node type derivation reads only the role table. -/
theorem derivedNodeType_congr (s1 s2 : DB) (h : s1.roles = s2.roles)
    (b : Bool) (ent : Entity) :
    derivedNodeType s1 b ent = derivedNodeType s2 b ent := by
  unfold derivedNodeType roleNameOf
  rw [h]

/-- The frame of the node upsert loop: an already-persisted node named by the
client list keeps its id, entityId and dagId and receives exactly the
clamped position, the category override and the re-derived type. -/
theorem upsertNodes_frame (dagId : String) :
    ∀ (ns : List ClientNode) (s s' : DB), upsertNodes dagId ns s = .ok s' →
      (ns.map ClientNode.id).Nodup →
      ∀ cn ∈ ns, ∀ old ∈ s.nodes, old.id = cn.id →
      ∀ ent, s.entities.find? (fun e => e.id == cn.entityId) = some ent →
      ({ old with
          x := if cn.type == some "root" then 0 else cn.x,
          y := if cn.type == some "root" then 0 else cn.y,
          category := orNull cn.category,
          type := derivedNodeType s (cn.type == some "root") ent } : DAGNode)
        ∈ s'.nodes := by
  intro ns
  induction ns with
  | nil =>
    intro s s' h _ cn hcn
    cases hcn
  | cons c0 rest ih =>
    intro s s' h hnd cn hcn old hold holdid ent hent
    rw [upsertNodes] at h
    split at h
    · cases h
    · rename_i s1 hstep
      rcases List.mem_cons.mp hcn with rfl | hcn
      · -- this iteration performs the update
        have hany : (s.nodes.any (fun n => n.id == cn.id)) = true :=
          List.any_eq_true.mpr ⟨old, hold, by simp [holdid]⟩
        unfold upsertNode at hstep
        rw [hent] at hstep
        dsimp only at hstep
        rw [hany] at hstep
        simp only [if_true] at hstep
        cases hstep
        refine upsertNodes_keep dagId rest _ s' h _
          (List.mem_map.mpr ⟨old, hold, by simp [holdid]⟩) ?_
        intro c hc hq
        apply (List.nodup_cons.mp hnd).1
        have hcq : c.id = cn.id := by
          rw [hq]
          exact holdid
        rw [← hcq]
        exact List.mem_map_of_mem ClientNode.id hc
      · -- the processed node differs; push through and recurse
        have hc0ne : c0.id ≠ cn.id := by
          intro hq
          exact (List.nodup_cons.mp hnd).1
            (hq ▸ List.mem_map_of_mem ClientNode.id hcn)
        have hold1 : old ∈ s1.nodes :=
          upsertNode_keep dagId c0 s s1 hstep old hold
            (fun hq => hc0ne (hq.trans holdid))
        obtain ⟨hent1, hrole1, _⟩ := upsertNode_ok_fields dagId c0 s s1 hstep
        have hres := ih s1 s' h (List.nodup_cons.mp hnd).2 cn hcn old hold1
          holdid ent (by rw [hent1]; exact hent)
        rw [derivedNodeType_congr s1 s hrole1] at hres
        exact hres

/-- A persisted edge not named by the processed client edge survives one edge
upsert iteration unchanged. -/
theorem upsertEdge_keep (dagId : String) (ce : ClientEdge) (s : DB)
    (e : DAGEdge) (he : e ∈ s.edges) (hne : ce.id ≠ e.id) :
    e ∈ (upsertEdge dagId ce s).edges := by
  have hb : (e.id == ce.id) = false := beq_eq_false_iff_ne.mpr (Ne.symm hne)
  unfold upsertEdge
  dsimp only
  split
  · exact List.mem_map.mpr ⟨e, he, by simp [hb]⟩
  · exact List.mem_append_left _ he

theorem upsertEdges_keep (dagId : String) :
    ∀ (ces : List ClientEdge) (s : DB) (e : DAGEdge), e ∈ s.edges →
      (∀ ce ∈ ces, ce.id ≠ e.id) → e ∈ (upsertEdges dagId ces s).edges
  | [], _, _, he, _ => he
  | ce :: rest, s, e, he, hni => by
    show e ∈ (upsertEdges dagId rest (upsertEdge dagId ce s)).edges
    exact upsertEdges_keep dagId rest _ e
      (upsertEdge_keep dagId ce s e he (hni ce (List.mem_cons_self _ _)))
      (fun c hc => hni c (List.mem_cons_of_mem _ hc))

/-- The frame of the edge upsert loop: an already-persisted edge named by the
client list keeps its id, dagId, endpoints and provenance link and receives
exactly the normalized relationship/label/handle fields. -/
theorem upsertEdges_frame (dagId : String) :
    ∀ (ces : List ClientEdge) (s : DB), (ces.map ClientEdge.id).Nodup →
      ∀ ce ∈ ces, ∀ olde ∈ s.edges, olde.id = ce.id →
      ({ olde with
          relationshipTypeId := orNull ce.relationshipTypeId,
          label := if (orNull ce.relationshipTypeId).isSome then none
                   else orNull ce.label,
          sourceHandle := orNull ce.sourceHandle,
          targetHandle := orNull ce.targetHandle } : DAGEdge)
        ∈ (upsertEdges dagId ces s).edges := by
  intro ces
  induction ces with
  | nil =>
    intro s _ ce hce
    cases hce
  | cons c0 rest ih =>
    intro s hnd ce hce olde holde holdeid
    rcases List.mem_cons.mp hce with rfl | hce
    · have hany : (s.edges.any (fun e => e.id == ce.id)) = true :=
        List.any_eq_true.mpr ⟨olde, holde, by simp [holdeid]⟩
      show _ ∈ (upsertEdges dagId rest (upsertEdge dagId ce s)).edges
      refine upsertEdges_keep dagId rest _ _ ?_ ?_
      · unfold upsertEdge
        dsimp only
        rw [hany]
        simp only [if_true]
        exact List.mem_map.mpr ⟨olde, holde, by simp [holdeid]⟩
      · intro c hc hq
        apply (List.nodup_cons.mp hnd).1
        have hcq : c.id = ce.id := by
          rw [hq]
          exact holdeid
        rw [← hcq]
        exact List.mem_map_of_mem ClientEdge.id hc
    · have hc0ne : c0.id ≠ ce.id := by
        intro hq
        exact (List.nodup_cons.mp hnd).1
          (hq ▸ List.mem_map_of_mem ClientEdge.id hce)
      show _ ∈ (upsertEdges dagId rest (upsertEdge dagId c0 s)).edges
      refine ih _ (List.nodup_cons.mp hnd).2 ce hce olde ?_ holdeid
      exact upsertEdge_keep dagId c0 s olde holde
        (fun hq => hc0ne (hq.trans holdeid))

/-- Split a boolean conjunction that evaluated to true. -/
theorem bool_and_split (a b : Bool) (h : (a && b) = true) :
    a = true ∧ b = true := by
  cases a <;> cases b <;> first | exact ⟨rfl, rfl⟩ | cases h

/-- A non-root client node is never stored with the root type. -/
theorem derivedNodeType_not_root (s : DB) (ent : Entity) :
    derivedNodeType s false ent ≠ "root" := by
  unfold derivedNodeType
  simp only [Bool.false_eq_true, if_false]
  split <;> decide

/-- Updating rows in place preserves the id column, hence id-uniqueness. -/
theorem nodup_map_update (l : List DAGNode) (f : DAGNode → DAGNode)
    (hnd : (l.map DAGNode.id).Nodup) (hf : ∀ n, (f n).id = n.id) :
    ((l.map f).map DAGNode.id).Nodup := by
  rw [List.map_map]
  have hcongr : ∀ n ∈ l, (DAGNode.id ∘ f) n = DAGNode.id n := fun n _ => hf n
  rw [List.map_congr_left hcongr]
  exact hnd

/-- With unique ids, a designated root member all of whose fellow roots share
its id means the root count is exactly one. -/
theorem rootCount_eq_one (dagId rid : String) :
    ∀ (l : List DAGNode), (l.map DAGNode.id).Nodup →
      (∃ n ∈ l, isRootOf dagId n = true ∧ n.id = rid) →
      (∀ n ∈ l, isRootOf dagId n = true → n.id = rid) →
      l.countP (isRootOf dagId) = 1 := by
  intro l
  induction l with
  | nil =>
    intro _ hex _
    obtain ⟨n, hn, _⟩ := hex
    cases hn
  | cons a t ih =>
    intro hnd hex hall
    rw [List.map_cons, List.nodup_cons] at hnd
    by_cases ha : isRootOf dagId a = true
    · rw [List.countP_cons_of_pos _ _ ha]
      have haid : a.id = rid := hall a (List.mem_cons_self _ _) ha
      have hz : t.countP (isRootOf dagId) = 0 := by
        rw [List.countP_eq_zero]
        intro n hn hroot
        apply hnd.1
        have hnid : n.id = rid := hall n (List.mem_cons_of_mem _ hn) hroot
        rw [haid, ← hnid]
        exact List.mem_map_of_mem DAGNode.id hn
      rw [hz]
    · rw [List.countP_cons_of_neg _ _ ha]
      refine ih hnd.2 ?_ (fun n hn hr => hall n (List.mem_cons_of_mem _ hn) hr)
      obtain ⟨n, hn, hr, hi⟩ := hex
      rcases List.mem_cons.mp hn with rfl | hn2
      · exact absurd hr ha
      · exact ⟨n, hn2, hr, hi⟩

/-- One node upsert preserves the root invariant when the client entry labels
the root exactly when it has the root's id. -/
theorem upsertNode_rootInv (dagId rid : String) (cn : ClientNode) (s s1 : DB)
    (hstep : upsertNode dagId cn s = .ok s1)
    (hlabel : (cn.type == some "root") = (cn.id == rid))
    (hnd : (s.nodes.map DAGNode.id).Nodup)
    (hex : ∃ rr ∈ s.nodes, isRootOf dagId rr = true ∧ rr.id = rid)
    (hall : ∀ n ∈ s.nodes, isRootOf dagId n = true →
      n.id = rid ∧ n.x = 0 ∧ n.y = 0) :
    (s1.nodes.map DAGNode.id).Nodup ∧
    (∃ rr ∈ s1.nodes, isRootOf dagId rr = true ∧ rr.id = rid) ∧
    (∀ n ∈ s1.nodes, isRootOf dagId n = true →
      n.id = rid ∧ n.x = 0 ∧ n.y = 0) := by
  unfold upsertNode at hstep
  split at hstep
  · cases hstep
  · rename_i ent hent
    dsimp only at hstep
    split at hstep
    · rename_i hany
      cases hstep
      refine ⟨nodup_map_update s.nodes _ hnd ?_, ?_, ?_⟩
      · intro n
        dsimp only
        split <;> rfl
      · obtain ⟨rr, hrr, hroot, hrid⟩ := hex
        obtain ⟨hrdag, hrtype⟩ := bool_and_split _ _ hroot
        by_cases hb : (rr.id == cn.id) = true
        · have hcnrid : cn.id = rid := (beq_iff_eq.mp hb).symm.trans hrid
          have hisroot : (cn.type == some "root") = true := by
            rw [hlabel]
            simp [hcnrid]
          refine ⟨_, List.mem_map_of_mem _ hrr, ?_, ?_⟩
          · simp only [hb, if_true, isRootOf]
            simp [hrdag, derivedNodeType, hisroot]
          · simp only [hb, if_true]
            exact hrid
        · refine ⟨rr, List.mem_map.mpr ⟨rr, hrr, by simp [hb]⟩, hroot, hrid⟩
      · intro n' hn' hroot'
        obtain ⟨n, hn, hun⟩ := List.mem_map.mp hn'
        subst hun
        by_cases hb : (n.id == cn.id) = true
        · by_cases hr : (cn.type == some "root") = true
          · have hcnid : (cn.id == rid) = true := hlabel ▸ hr
            simp only [hb, if_true] at hroot' ⊢
            exact ⟨(beq_iff_eq.mp hb).trans (beq_iff_eq.mp hcnid),
              by simp [hr], by simp [hr]⟩
          · exfalso
            have hrf : (cn.type == some "root") = false := by
              cases hcase : (cn.type == some "root") with
              | false => rfl
              | true => exact absurd hcase hr
            simp only [hb, if_true, isRootOf, hrf] at hroot'
            exact derivedNodeType_not_root s ent
              (by simpa using (bool_and_split _ _ hroot').2)
        · simp only [hb, Bool.false_eq_true, if_false] at hroot' ⊢
          exact hall n hn hroot'
    · rename_i hany
      cases hstep
      have hanyf : (s.nodes.any (fun n => n.id == cn.id)) = false := by
        cases hcase : s.nodes.any (fun n => n.id == cn.id) with
        | false => rfl
        | true => exact absurd hcase hany
      have hallne : ∀ n ∈ s.nodes, (n.id == cn.id) = false := by
        intro n hn
        cases hcase : (n.id == cn.id) with
        | false => rfl
        | true =>
          exact absurd (List.any_eq_true.mpr ⟨n, hn, hcase⟩)
            (by rw [hanyf]; decide)
      have hrfalse : (cn.type == some "root") = false := by
        cases hcase : (cn.type == some "root") with
        | false => rfl
        | true =>
          exfalso
          have hcnid : (cn.id == rid) = true := hlabel ▸ hcase
          obtain ⟨rr, hrr, _, hrid⟩ := hex
          have : (rr.id == cn.id) = true := by
            simp [hrid, beq_iff_eq.mp hcnid]
          exact absurd this (by rw [hallne rr hrr]; decide)
      refine ⟨?_, ?_, ?_⟩
      · rw [List.map_append]
        refine List.Nodup.append hnd (List.nodup_singleton _) ?_
        intro a ha hb
        obtain ⟨n, hn, hnid⟩ := List.mem_map.mp ha
        obtain ⟨m, hm, hmid⟩ := List.mem_map.mp hb
        have hm1 : m = (⟨cn.id, dagId, cn.entityId,
            if cn.type == some "root" then 0 else cn.x,
            if cn.type == some "root" then 0 else cn.y,
            derivedNodeType s (cn.type == some "root") ent,
            orNull cn.category⟩ : DAGNode) := List.mem_singleton.mp hm
        have hne : (n.id == cn.id) = true := by
          rw [hnid, ← hmid, hm1]
          simp
        rw [hallne n hn] at hne
        cases hne
      · obtain ⟨rr, hrr, hroot, hrid⟩ := hex
        exact ⟨rr, List.mem_append_left _ hrr, hroot, hrid⟩
      · intro n' hn' hroot'
        rcases List.mem_append.mp hn' with hn2 | hn2
        · exact hall n' hn2 hroot'
        · exfalso
          have hn'eq := List.mem_singleton.mp hn2
          rw [hn'eq, isRootOf] at hroot'
          have := (bool_and_split _ _ hroot').2
          rw [hrfalse] at this
          exact derivedNodeType_not_root s ent (by simpa using this)

/-- The node upsert loop preserves the root invariant. -/
theorem upsertNodes_rootInv (dagId rid : String) :
    ∀ (ns : List ClientNode) (s s' : DB), upsertNodes dagId ns s = .ok s' →
      (∀ cn ∈ ns, (cn.type == some "root") = (cn.id == rid)) →
      (s.nodes.map DAGNode.id).Nodup →
      (∃ rr ∈ s.nodes, isRootOf dagId rr = true ∧ rr.id = rid) →
      (∀ n ∈ s.nodes, isRootOf dagId n = true →
        n.id = rid ∧ n.x = 0 ∧ n.y = 0) →
      (s'.nodes.map DAGNode.id).Nodup ∧
      (∃ rr ∈ s'.nodes, isRootOf dagId rr = true ∧ rr.id = rid) ∧
      (∀ n ∈ s'.nodes, isRootOf dagId n = true →
        n.id = rid ∧ n.x = 0 ∧ n.y = 0) := by
  intro ns
  induction ns with
  | nil =>
    intro s s' h _ hnd hex hall
    cases h
    exact ⟨hnd, hex, hall⟩
  | cons cn rest ih =>
    intro s s' h hlabel hnd hex hall
    rw [upsertNodes] at h
    split at h
    · cases h
    · rename_i s1 hstep
      obtain ⟨hnd1, hex1, hall1⟩ := upsertNode_rootInv dagId rid cn s s1 hstep
        (hlabel cn (List.mem_cons_self _ _)) hnd hex hall
      exact ih s1 s' h (fun c hc => hlabel c (List.mem_cons_of_mem _ hc))
        hnd1 hex1 hall1

/-- The root-exempt deletion pass preserves the root invariant. -/
theorem deleteMissingNodes_rootInv (dagId rid : String) (ids : List String)
    (s : DB)
    (hnd : (s.nodes.map DAGNode.id).Nodup)
    (hex : ∃ rr ∈ s.nodes, isRootOf dagId rr = true ∧ rr.id = rid)
    (hall : ∀ n ∈ s.nodes, isRootOf dagId n = true →
      n.id = rid ∧ n.x = 0 ∧ n.y = 0) :
    ((deleteMissingNodes dagId ids s).nodes.map DAGNode.id).Nodup ∧
    (∃ rr ∈ (deleteMissingNodes dagId ids s).nodes,
      isRootOf dagId rr = true ∧ rr.id = rid) ∧
    (∀ n ∈ (deleteMissingNodes dagId ids s).nodes,
      isRootOf dagId n = true → n.id = rid ∧ n.x = 0 ∧ n.y = 0) := by
  unfold deleteMissingNodes
  split
  · exact ⟨hnd, hex, hall⟩
  · refine ⟨((List.filter_sublist _).map DAGNode.id).nodup hnd, ?_, ?_⟩
    · obtain ⟨rr, hrr, hroot, hrid⟩ := hex
      have hrtype := (bool_and_split _ _ hroot).2
      refine ⟨rr, List.mem_filter.mpr ⟨hrr, ?_⟩, hroot, hrid⟩
      simp [beq_iff_eq.mp hrtype]
    · intro n hn hroot
      exact hall n (List.mem_filter.mp hn).1 hroot

/-! ## Claim theorems -/

/-- C3: event-driven edge derivation never creates a second edge for an
ordered (source, target) pair.  First conjunct: createEvent preserves the
at-most-one-edge-per-ordered-pair invariant for every graph and pair.  Second
conjunct: calling createEvent twice with identical request (source, target,
createEdge=true) appends one Event record per call but the second call
returns `createdEdge = null` and leaves the edge table exactly as the first
call left it, because it finds the existing edge for the pair and skips
creation. -/
theorem c3_edge_derivation_idempotent (s : DB) (req : CreateEventRequest)
    (t1 n1 e1 t2 n2 e2 : String) :
    (∀ d sid tid, s.edges.countP (edgePairMatch d sid tid) ≤ 1 →
      (createEvent s req t1 n1 e1).1.edges.countP (edgePairMatch d sid tid)
        ≤ 1) ∧
    (req.createEdge = true → truthyS req.sourceNodeId = true →
     truthyS req.targetNodeId = true →
     ∀ s1 r1 s2x r2, createEvent s req t1 n1 e1 = (s1, r1) →
       createEvent s1 req t2 n2 e2 = (s2x, r2) →
       (∃ ce1, r1 = EventResult.ok n1 ce1) →
       r2 = EventResult.ok n2 none ∧ s2x.edges = s1.edges ∧
       s1.events.length = s.events.length + 1 ∧
       s2x.events.length = s1.events.length + 1) := by
  constructor
  · intro d sid tid hle
    rcases createEvent_edges_cases s req t1 n1 e1 with h | ⟨hf, h⟩
    · rw [h]
      exact hle
    · rw [h, List.countP_append]
      by_cases hp : edgePairMatch d sid tid
        ⟨e1, req.dagId.getD "", req.sourceNodeId.getD "",
         req.targetNodeId.getD "", some (strTrim req.title), none, none, none,
         some n1⟩ = true
      · obtain ⟨⟨hd, hs2⟩, ht2⟩ :
            (req.dagId.getD "" = d ∧ req.sourceNodeId.getD "" = sid) ∧
              req.targetNodeId.getD "" = tid := by
          simpa [edgePairMatch] using hp
        subst hd
        subst hs2
        subst ht2
        have hz : s.edges.countP (edgePairMatch (req.dagId.getD "")
            (req.sourceNodeId.getD "") (req.targetNodeId.getD "")) = 0 := by
          rw [List.countP_eq_zero]
          intro x hx
          simpa using List.find?_eq_none.mp hf x hx
        rw [hz]
        simp [List.countP_cons, hp]
      · have hz1 : List.countP (edgePairMatch d sid tid)
            [⟨e1, req.dagId.getD "", req.sourceNodeId.getD "",
              req.targetNodeId.getD "", some (strTrim req.title), none, none,
              none, some n1⟩] = 0 := by
          simp [List.countP_cons, hp]
        rw [hz1]
        simpa using hle
  · intro hce hsrc htgt s1 r1 s2x r2 h1x h2x hr1
    obtain ⟨ce1, hr1⟩ := hr1
    subst hr1
    have hg : (req.createEdge && truthyS req.sourceNodeId &&
        truthyS req.targetNodeId) = true := by simp [hce, hsrc, htgt]
    obtain ⟨g1, g2, g3, g4, g5, g6, g7, g8, _, hnodes, hlen1⟩ :=
      createEvent_ok_guards s req t1 n1 e1 s1 n1 ce1 h1x
    obtain ⟨ed, hedmem, hedp⟩ :=
      createEvent_ok_pair s req t1 n1 e1 s1 ce1 hg h1x
    have hex1 : (s1.edges.find? (edgePairMatch (req.dagId.getD "")
        (req.sourceNodeId.getD "") (req.targetNodeId.getD ""))).isSome =
        true := List.find?_isSome.mpr ⟨ed, hedmem, hedp⟩
    have g6x : (truthyS req.sourceNodeId && (s1.nodes.find? (fun n =>
        some n.id == req.sourceNodeId &&
        n.dagId == req.dagId.getD "")).isNone) = false := by
      rw [hnodes]
      exact g6
    have g7x : (truthyS req.targetNodeId && (s1.nodes.find? (fun n =>
        some n.id == req.targetNodeId &&
        n.dagId == req.dagId.getD "")).isNone) = false := by
      rw [hnodes]
      exact g7
    obtain ⟨s2n, ce2, h2ok⟩ :=
      createEvent_guards_ok s1 req t2 n2 e2 g1 g2 g3 g4 g5 g6x g7x g8
    rw [h2x, Prod.mk.injEq] at h2ok
    obtain ⟨hs2e, hr2⟩ := h2ok
    have h2ok2 : createEvent s1 req t2 n2 e2 = (s2n, EventResult.ok n2 ce2) := by
      rw [← hs2e, ← hr2]
      exact h2x
    obtain ⟨hce2, hedges⟩ :=
      createEvent_ok_edges_of_existing s1 req t2 n2 e2 s2n ce2 hex1 h2ok2
    obtain ⟨_, _, _, _, _, _, _, _, _, _, hlen2⟩ :=
      createEvent_ok_guards s1 req t2 n2 e2 s2n n2 ce2 h2ok2
    refine ⟨?_, ?_, hlen1, ?_⟩
    · rw [hr2, hce2]
    · rw [hs2e]
      exact hedges
    · rw [hs2e]
      exact hlen2

/-- C3 witness. -/
theorem c3_edge_derivation_idempotent_witness :
    (createEvent
      (createEvent
        ⟨["g"], [], [], [⟨"n1", "g", "E", 0, 0, "root", none⟩,
          ⟨"n2", "g", "E", 1, 1, "custom", none⟩], [],
         [⟨"et", "meet", "i", "c"⟩], []⟩
        ⟨"Meeting", none, some (some 10), none, [], none, none, some "et",
         some "n1", some "n2", none, true, some "g"⟩ "t1" "ev1" "ed1").1
      ⟨"Meeting", none, some (some 10), none, [], none, none, some "et",
       some "n1", some "n2", none, true, some "g"⟩ "t2" "ev2" "ed2").2 =
      EventResult.ok "ev2" none ∧
    (createEvent
      (createEvent
        ⟨["g"], [], [], [⟨"n1", "g", "E", 0, 0, "root", none⟩,
          ⟨"n2", "g", "E", 1, 1, "custom", none⟩], [],
         [⟨"et", "meet", "i", "c"⟩], []⟩
        ⟨"Meeting", none, some (some 10), none, [], none, none, some "et",
         some "n1", some "n2", none, true, some "g"⟩ "t1" "ev1" "ed1").1
      ⟨"Meeting", none, some (some 10), none, [], none, none, some "et",
       some "n1", some "n2", none, true, some "g"⟩ "t2" "ev2" "ed2").1.edges =
    (createEvent
      ⟨["g"], [], [], [⟨"n1", "g", "E", 0, 0, "root", none⟩,
        ⟨"n2", "g", "E", 1, 1, "custom", none⟩], [],
       [⟨"et", "meet", "i", "c"⟩], []⟩
      ⟨"Meeting", none, some (some 10), none, [], none, none, some "et",
       some "n1", some "n2", none, true, some "g"⟩ "t1" "ev1" "ed1").1.edges := by
  have h := (c3_edge_derivation_idempotent
      ⟨["g"], [], [], [⟨"n1", "g", "E", 0, 0, "root", none⟩,
        ⟨"n2", "g", "E", 1, 1, "custom", none⟩], [],
       [⟨"et", "meet", "i", "c"⟩], []⟩
      ⟨"Meeting", none, some (some 10), none, [], none, none, some "et",
       some "n1", some "n2", none, true, some "g"⟩
      "t1" "ev1" "ed1" "t2" "ev2" "ed2").2 rfl (by decide) (by decide)
      _ _ _ _ rfl rfl ⟨some "ed1", by decide⟩
  exact ⟨h.1, h.2.1⟩

/-- C4: createEvent with a sourceNodeId or targetNodeId that does not
reference a node of the target graph fails and creates nothing.  First
conjunct: unconditionally, an unmatched source id leaves the store untouched
and yields an error response.  Second and third conjuncts: once the earlier
request validations pass, the failure is precisely the node-not-found
rejection for the source (resp. target) endpoint — the handler returns the
"not found in this DAG" error (HTTP 400 at the boundary), so a node id that
exists only in a different graph is rejected by the `dagId` conjunct of the
lookup. -/
theorem c4_cross_graph_node_rejected (s : DB) (req : CreateEventRequest)
    (a b c : String) :
    (truthyS req.sourceNodeId = true →
      s.nodes.find? (fun n => some n.id == req.sourceNodeId &&
        n.dagId == req.dagId.getD "") = none →
      (createEvent s req a b c).1 = s ∧
      ∃ st m, (createEvent s req a b c).2 = EventResult.err st m) ∧
    (strTrim req.title ≠ "" →
     (req.date.isSome = true ∨ truthySeriesDay req.seriesDay = true ∨
       truthyS req.sourceDagId = true) →
     (truthyS req.eventTypeId = true ∨ truthyS req.customTypeName = true) →
     truthyS req.dagId = true →
     truthyS req.sourceNodeId = true →
     s.nodes.find? (fun n => some n.id == req.sourceNodeId &&
       n.dagId == req.dagId.getD "") = none →
     createEvent s req a b c =
       (s, EventResult.err 400 "Source node not found in this DAG")) ∧
    (strTrim req.title ≠ "" →
     (req.date.isSome = true ∨ truthySeriesDay req.seriesDay = true ∨
       truthyS req.sourceDagId = true) →
     (truthyS req.eventTypeId = true ∨ truthyS req.customTypeName = true) →
     truthyS req.dagId = true →
     truthyS req.targetNodeId = true →
     (truthyS req.sourceNodeId = false ∨
       (s.nodes.find? (fun n => some n.id == req.sourceNodeId &&
         n.dagId == req.dagId.getD "")).isSome = true) →
     s.nodes.find? (fun n => some n.id == req.targetNodeId &&
       n.dagId == req.dagId.getD "") = none →
     createEvent s req a b c =
       (s, EventResult.err 400 "Target node not found in this DAG")) := by
  refine ⟨?_, ?_, ?_⟩
  · intro hsrc hfind
    have g6 : (truthyS req.sourceNodeId && (s.nodes.find? (fun n =>
        some n.id == req.sourceNodeId &&
        n.dagId == req.dagId.getD "")).isNone) = true := by
      simp [hsrc, hfind]
    by_cases c1 : (strTrim req.title == "") = true
    · simp only [createEvent, c1, if_true]
      exact ⟨trivial, _, _, rfl⟩
    rw [Bool.not_eq_true] at c1
    by_cases c2 : (!req.date.isSome && !truthySeriesDay req.seriesDay &&
      !truthyS req.sourceDagId) = true
    · simp only [createEvent, c1, Bool.false_eq_true, if_false, c2, if_true]
      exact ⟨trivial, _, _, rfl⟩
    rw [Bool.not_eq_true] at c2
    by_cases c3 : (!truthyS req.eventTypeId && !truthyS req.customTypeName) =
      true
    · simp only [createEvent, c1, c2, Bool.false_eq_true, if_false, c3,
        if_true]
      exact ⟨trivial, _, _, rfl⟩
    rw [Bool.not_eq_true] at c3
    by_cases c4 : (!truthyS req.dagId) = true
    · simp only [createEvent, c1, c2, c3, Bool.false_eq_true, if_false, c4,
        if_true]
      exact ⟨trivial, _, _, rfl⟩
    rw [Bool.not_eq_true] at c4
    by_cases c5 : (!truthyS req.sourceNodeId && !truthyS req.targetNodeId &&
      (req.participantNodeIds.getD []).isEmpty) = true
    · simp only [createEvent, c1, c2, c3, c4, Bool.false_eq_true, if_false,
        c5, if_true]
      exact ⟨trivial, _, _, rfl⟩
    rw [Bool.not_eq_true] at c5
    simp only [createEvent, c1, c2, c3, c4, c5, Bool.false_eq_true, if_false,
      g6, eq_self_iff_true, if_true]
    exact ⟨trivial, _, _, rfl⟩
  · intro h1 h2 h3 h4 hsrc hfind
    have g1 : (strTrim req.title == "") = false := by simp [h1]
    have g2 : (!req.date.isSome && !truthySeriesDay req.seriesDay &&
        !truthyS req.sourceDagId) = false := by
      rcases h2 with hx | hx | hx <;> simp [hx]
    have g3 : (!truthyS req.eventTypeId && !truthyS req.customTypeName) =
        false := by
      rcases h3 with hx | hx <;> simp [hx]
    have g5 : (!truthyS req.sourceNodeId && !truthyS req.targetNodeId &&
        (req.participantNodeIds.getD []).isEmpty) = false := by simp [hsrc]
    have g6 : (truthyS req.sourceNodeId && (s.nodes.find? (fun n =>
        some n.id == req.sourceNodeId &&
        n.dagId == req.dagId.getD "")).isNone) = true := by
      simp [hsrc, hfind]
    simp only [createEvent, g1, g2, g3, h4, g5, g6, Bool.not_true,
      Bool.false_eq_true, eq_self_iff_true, if_false, if_true]
  · intro h1 h2 h3 h4 htgt hsrcok hfind
    have g1 : (strTrim req.title == "") = false := by simp [h1]
    have g2 : (!req.date.isSome && !truthySeriesDay req.seriesDay &&
        !truthyS req.sourceDagId) = false := by
      rcases h2 with hx | hx | hx <;> simp [hx]
    have g3 : (!truthyS req.eventTypeId && !truthyS req.customTypeName) =
        false := by
      rcases h3 with hx | hx <;> simp [hx]
    have g5 : (!truthyS req.sourceNodeId && !truthyS req.targetNodeId &&
        (req.participantNodeIds.getD []).isEmpty) = false := by simp [htgt]
    have g6 : (truthyS req.sourceNodeId && (s.nodes.find? (fun n =>
        some n.id == req.sourceNodeId &&
        n.dagId == req.dagId.getD "")).isNone) = false := by
      rcases hsrcok with hx | hx
      · simp [hx]
      · rcases Option.isSome_iff_exists.mp hx with ⟨v, hv⟩
        simp [hv]
    have g7 : (truthyS req.targetNodeId && (s.nodes.find? (fun n =>
        some n.id == req.targetNodeId &&
        n.dagId == req.dagId.getD "")).isNone) = true := by
      simp [htgt, hfind]
    simp only [createEvent, g1, g2, g3, h4, g5, g6, g7, Bool.not_true,
      Bool.false_eq_true, eq_self_iff_true, if_false, if_true]

/-- C4 witness. -/
theorem c4_cross_graph_node_rejected_witness :
    createEvent
      ⟨["g"], [], [], [⟨"n1", "g", "E", 0, 0, "root", none⟩], [],
       [⟨"et", "meet", "i", "c"⟩], []⟩
      ⟨"Meeting", none, some (some 10), none, [], none, none, some "et",
       some "nX", some "n1", none, true, some "g"⟩ "t1" "ev1" "ed1" =
    (⟨["g"], [], [], [⟨"n1", "g", "E", 0, 0, "root", none⟩], [],
      [⟨"et", "meet", "i", "c"⟩], []⟩,
     EventResult.err 400 "Source node not found in this DAG") :=
  (c4_cross_graph_node_rejected
      ⟨["g"], [], [], [⟨"n1", "g", "E", 0, 0, "root", none⟩], [],
       [⟨"et", "meet", "i", "c"⟩], []⟩
      ⟨"Meeting", none, some (some 10), none, [], none, none, some "et",
       some "nX", some "n1", none, true, some "g"⟩ "t1" "ev1" "ed1").2.1
    (by decide) (Or.inl (by decide)) (Or.inl (by decide)) (by decide)
    (by decide) (by decide)

/-- C5: when createEvent succeeds, the new event's sortOrder equals the
maximum sortOrder among the existing events of the same graph sharing the same
calendar date plus 1, or — when no date is given — among those sharing the
same seriesDay plus 1; in particular, when no other event exists for that day
the assigned sortOrder is 0 (the handler's empty-day maximum is -1). -/
theorem c5_sortorder_assignment (s : DB) (req : CreateEventRequest)
    (a b c : String) (s' : DB) (ce : Option String)
    (hok : createEvent s req a b c = (s', EventResult.ok b ce)) :
    (∀ t, req.date = some (some t) →
      ∃ ev ∈ s'.events, ev.id = b ∧
        ev.sortOrder =
          maxSortOrder (sameDayEventSortOrders s (req.dagId.getD "") t) + 1 ∧
        (sameDayEventSortOrders s (req.dagId.getD "") t = [] →
          ev.sortOrder = 0)) ∧
    (req.date = none → ∀ sd, req.seriesDay = some sd →
      ∃ ev ∈ s'.events, ev.id = b ∧
        ev.sortOrder =
          maxSortOrder (sameSeriesDaySortOrders s (req.dagId.getD "") sd) + 1 ∧
        (sameSeriesDaySortOrders s (req.dagId.getD "") sd = [] →
          ev.sortOrder = 0)) := by
  obtain ⟨ev, hmem, hid, hsort⟩ := createEvent_ok_event_mem s req a b c s' ce hok
  constructor
  · intro t ht
    rw [ht] at hsort
    simp [Option.join, computeSortOrder] at hsort
    refine ⟨ev, hmem, hid, hsort, ?_⟩
    intro hemp
    rw [hsort, hemp]
    decide
  · intro hd sd hsd
    rw [hd, hsd] at hsort
    simp [Option.join, computeSortOrder] at hsort
    refine ⟨ev, hmem, hid, hsort, ?_⟩
    intro hemp
    rw [hsort, hemp]
    decide

/-- C5 witness. -/
theorem c5_sortorder_assignment_witness :
    ∃ ev ∈ (createEvent
      ⟨["g"], [], [], [⟨"n1", "g", "E", 0, 0, "root", none⟩], [],
       [⟨"et", "meet", "i", "c"⟩], []⟩
      ⟨"Meeting", none, some (some 10), none, [], none, none, some "et",
       some "n1", none, none, false, some "g"⟩ "t1" "ev1" "ed1").1.events,
      ev.id = "ev1" ∧
      ev.sortOrder = maxSortOrder (sameDayEventSortOrders
        ⟨["g"], [], [], [⟨"n1", "g", "E", 0, 0, "root", none⟩], [],
         [⟨"et", "meet", "i", "c"⟩], []⟩ "g" 10) + 1 ∧
      (sameDayEventSortOrders
        ⟨["g"], [], [], [⟨"n1", "g", "E", 0, 0, "root", none⟩], [],
         [⟨"et", "meet", "i", "c"⟩], []⟩ "g" 10 = [] → ev.sortOrder = 0) :=
  (c5_sortorder_assignment
      ⟨["g"], [], [], [⟨"n1", "g", "E", 0, 0, "root", none⟩], [],
       [⟨"et", "meet", "i", "c"⟩], []⟩
      ⟨"Meeting", none, some (some 10), none, [], none, none, some "et",
       some "n1", none, none, false, some "g"⟩ "t1" "ev1" "ed1"
      (createEvent
        ⟨["g"], [], [], [⟨"n1", "g", "E", 0, 0, "root", none⟩], [],
         [⟨"et", "meet", "i", "c"⟩], []⟩
        ⟨"Meeting", none, some (some 10), none, [], none, none, some "et",
         some "n1", none, none, false, some "g"⟩ "t1" "ev1" "ed1").1
      none (by decide)).1 10 rfl

/-- C9: the saveGraph upsert of an already-persisted node updates only its
position (clamped for roots), category override and re-derived type — its id,
entityId and dagId come unchanged from the persisted row, whatever the client
sent for them; likewise an already-persisted edge receives only the normalized
relationshipTypeId, label and handles — its id, dagId, sourceId, targetId and
provenance link are unchanged.  The conclusion exhibits the updated row as a
record update of the old row that touches exactly the updated columns. -/
theorem c9_upsert_frame (s : DB) (dagId : String) (ns : List ClientNode)
    (es : List ClientEdge) (s' : DB)
    (hok : saveGraph s dagId ns es = (s', SaveResult.ok))
    (hndN : (ns.map ClientNode.id).Nodup)
    (hndE : (es.map ClientEdge.id).Nodup) :
    (∀ cn ∈ ns, ∀ old ∈ s.nodes, old.id = cn.id →
      ∀ ent, s.entities.find? (fun e => e.id == cn.entityId) = some ent →
      ({ old with
          x := if cn.type == some "root" then 0 else cn.x,
          y := if cn.type == some "root" then 0 else cn.y,
          category := orNull cn.category,
          type := derivedNodeType s (cn.type == some "root") ent } : DAGNode)
        ∈ s'.nodes) ∧
    (∀ ce ∈ es, ∀ olde ∈ s.edges, olde.id = ce.id →
      ({ olde with
          relationshipTypeId := orNull ce.relationshipTypeId,
          label := if (orNull ce.relationshipTypeId).isSome then none
                   else orNull ce.label,
          sourceHandle := orNull ce.sourceHandle,
          targetHandle := orNull ce.targetHandle } : DAGEdge)
        ∈ s'.edges) := by
  unfold saveGraph at hok
  repeat' (first
    | split at hok
    | dsimp only at hok)
  all_goals rw [Prod.mk.injEq] at hok
  all_goals obtain ⟨hks, hkr⟩ := hok
  all_goals cases hkr
  rename_i s2 hun
  subst hks
  constructor
  · intro cn hcn old hold holdid ent hent
    have hold1 := deleteMissingNodes_keep dagId (ns.map ClientNode.id) s old
      hold (by rw [holdid]; exact List.mem_map_of_mem ClientNode.id hcn)
    obtain ⟨hde, hdr, _⟩ :=
      deleteMissingNodes_fields dagId (ns.map ClientNode.id) s
    have hent1 : (deleteMissingNodes dagId (ns.map ClientNode.id)
        s).entities.find? (fun e => e.id == cn.entityId) = some ent := by
      rw [hde]
      exact hent
    have hres := upsertNodes_frame dagId ns _ s2 hun hndN cn hcn old hold1
      holdid ent hent1
    rw [derivedNodeType_congr _ s hdr] at hres
    rw [upsertEdges_nodes dagId es _, deleteMissingEdges_nodes]
    exact hres
  · intro ce hce olde holde holdeid
    obtain ⟨_, _, hdd⟩ :=
      deleteMissingNodes_fields dagId (ns.map ClientNode.id) s
    obtain ⟨_, _, hud⟩ := upsertNodes_ok_fields dagId ns _ s2 hun
    have holde2 : olde ∈ (deleteMissingEdges dagId (es.map ClientEdge.id)
        s2).edges := by
      refine deleteMissingEdges_keep dagId (es.map ClientEdge.id) s2 olde ?_
        (by rw [holdeid]; exact List.mem_map_of_mem ClientEdge.id hce)
      rw [hud, hdd]
      exact holde
    exact upsertEdges_frame dagId es _ hndE ce hce olde holde2 holdeid

/-- C9 witness. -/
theorem c9_upsert_frame_witness :
    (⟨"n1", "g", "E", 7, 8, "custom", some "law_enforcement"⟩ : DAGNode) ∈
      (saveGraph
        ⟨["g"], [], [⟨"E", "Ent", "r0", "human", none, none⟩],
         [⟨"n1", "g", "E", 3, 4, "custom", none⟩],
         [⟨"e0", "g", "n1", "n1", some "knows", none, none, none, some "evx"⟩],
         [], []⟩
        "g" [⟨"n1", some "custom", 7, 8, "E", some "law_enforcement"⟩]
        [⟨"e0", "nA", "nB", some "newlabel", none, some "top", none⟩]).1.nodes ∧
    (⟨"e0", "g", "n1", "n1", some "newlabel", none, some "top", none,
      some "evx"⟩ : DAGEdge) ∈
      (saveGraph
        ⟨["g"], [], [⟨"E", "Ent", "r0", "human", none, none⟩],
         [⟨"n1", "g", "E", 3, 4, "custom", none⟩],
         [⟨"e0", "g", "n1", "n1", some "knows", none, none, none, some "evx"⟩],
         [], []⟩
        "g" [⟨"n1", some "custom", 7, 8, "E", some "law_enforcement"⟩]
        [⟨"e0", "nA", "nB", some "newlabel", none, some "top", none⟩]).1.edges := by
  have h := c9_upsert_frame
    ⟨["g"], [], [⟨"E", "Ent", "r0", "human", none, none⟩],
     [⟨"n1", "g", "E", 3, 4, "custom", none⟩],
     [⟨"e0", "g", "n1", "n1", some "knows", none, none, none, some "evx"⟩],
     [], []⟩
    "g" [⟨"n1", some "custom", 7, 8, "E", some "law_enforcement"⟩]
    [⟨"e0", "nA", "nB", some "newlabel", none, some "top", none⟩]
    (saveGraph
      ⟨["g"], [], [⟨"E", "Ent", "r0", "human", none, none⟩],
       [⟨"n1", "g", "E", 3, 4, "custom", none⟩],
       [⟨"e0", "g", "n1", "n1", some "knows", none, none, none, some "evx"⟩],
       [], []⟩
      "g" [⟨"n1", some "custom", 7, 8, "E", some "law_enforcement"⟩]
      [⟨"e0", "nA", "nB", some "newlabel", none, some "top", none⟩]).1
    (by decide) (by decide) (by decide)
  constructor
  · have hn := h.1 ⟨"n1", some "custom", 7, 8, "E", some "law_enforcement"⟩
      (List.mem_singleton_self _) ⟨"n1", "g", "E", 3, 4, "custom", none⟩
      (List.mem_singleton_self _) rfl
      ⟨"E", "Ent", "r0", "human", none, none⟩ (by decide)
    simpa using hn
  · have he := h.2 ⟨"e0", "nA", "nB", some "newlabel", none, some "top", none⟩
      (List.mem_singleton_self _)
      ⟨"e0", "g", "n1", "n1", some "knows", none, none, none, some "evx"⟩
      (List.mem_singleton_self _) rfl
    simpa using he

/-- C7: `calculateSmartPosition` is a deterministic function of its inputs
(it is a total Lean function of the related nodes, the node list, the viewport
and the window dimensions); with exactly one related node it returns that
node's position offset 300 right and 150 down; with two or more it returns the
center of the bounding box of the related nodes plus the fixed diagonal offset
(250, 250); with none it returns the viewport center when a viewport is known
and the origin otherwise. -/
theorem c7_smart_position_spec (rel allNodes : List Pos) (vp : Option Viewport)
    (w h : ℚ) :
    (rel = [] → calculateSmartPosition rel allNodes vp w h =
      (match vp with
       | some v => ⟨-v.x / v.zoom + w / 2 / v.zoom,
                    -v.y / v.zoom + h / 2 / v.zoom⟩
       | none => ⟨0, 0⟩)) ∧
    (∀ p, rel = [p] →
      calculateSmartPosition rel allNodes vp w h = ⟨p.x + 300, p.y + 150⟩) ∧
    (∀ p q rest, rel = p :: q :: rest →
      calculateSmartPosition rel allNodes vp w h =
        ⟨((rel.map Pos.x).foldl min p.x + (rel.map Pos.x).foldl max p.x) / 2
           + 250,
         ((rel.map Pos.y).foldl min p.y + (rel.map Pos.y).foldl max p.y) / 2
           + 250⟩) := by
  refine ⟨?_, ?_, ?_⟩
  · rintro rfl
    rfl
  · rintro p rfl
    simp only [calculateSmartPosition, Pos.mk.injEq]
    norm_num
  · rintro p q rest rfl
    rfl

/-- C7 witness. -/
theorem c7_smart_position_spec_witness :
    calculateSmartPosition [⟨1, 2⟩] [] none 0 0 = ⟨301, 152⟩ := by
  have h := (c7_smart_position_spec [⟨1, 2⟩] [] none 0 0).2.1 ⟨1, 2⟩ rfl
  rw [h]
  norm_num

/-- C8: the conflict-resolution loop runs at most `maxAttempts` iterations
(`fncCount` counts the iterations `findNonConflictingPosition` executes) and
always returns a position; candidate `k` lies at radius `150·(1+⌊k/8⌋)` from
the desired point in the direction of the (abstracted) cosine and sine of the
angle `45°·k`; the result is a pure function of the arguments (it is a total
Lean function, and every part of this statement holds for all `cosf`/`sinf`);
and when the desired position and every candidate checked before exhaustion
conflict, the loop returns the last candidate, `spiralCandidate (maxAttempts -
1)`, without checking it for conflicts. -/
theorem c8_find_position_spec (cosf sinf : ℕ → ℚ) (desired : Pos)
    (allNodes : List Pos) (maxAttempts : ℕ) (hpos : 0 < maxAttempts) :
    fncCount cosf sinf desired allNodes maxAttempts 0 desired ≤ maxAttempts ∧
    (∀ k, spiralCandidate cosf sinf desired k =
      ⟨desired.x + 150 * ((1 + k / 8 : ℕ) : ℚ) * cosf k,
       desired.y + 150 * ((1 + k / 8 : ℕ) : ℚ) * sinf k⟩) ∧
    (hasPositionConflict desired allNodes 200 = true →
      (∀ k, k + 1 < maxAttempts →
        hasPositionConflict (spiralCandidate cosf sinf desired k) allNodes 200
          = true) →
      findNonConflictingPosition cosf sinf desired allNodes maxAttempts =
        spiralCandidate cosf sinf desired (maxAttempts - 1)) := by
  refine ⟨fncCount_le cosf sinf desired allNodes maxAttempts 0 desired,
    ?_, ?_⟩
  · intro k
    rfl
  · intro hd hc
    rw [findNonConflictingPosition,
      fncGo_exhausted cosf sinf desired allNodes maxAttempts 0 desired hpos hd
        (fun k _ hk2 => hc k (by omega))]
    congr 1
    omega

/-- C8 witness. -/
theorem c8_find_position_spec_witness :
    fncCount (fun _ => 0) (fun _ => 0) ⟨0, 0⟩ [⟨0, 0⟩] 10 0 ⟨0, 0⟩ ≤ 10 ∧
    findNonConflictingPosition (fun _ => 0) (fun _ => 0) ⟨0, 0⟩ [⟨0, 0⟩] 10 =
      spiralCandidate (fun _ => 0) (fun _ => 0) ⟨0, 0⟩ 9 := by
  have h := c8_find_position_spec (fun _ => 0) (fun _ => 0) ⟨0, 0⟩ [⟨0, 0⟩] 10
    (by decide)
  have hconf : hasPositionConflict ⟨0, 0⟩ [⟨0, 0⟩] 200 = true := by
    simp [hasPositionConflict]
  have hcand : ∀ k, spiralCandidate (fun _ => 0) (fun _ => 0) ⟨0, 0⟩ k =
      (⟨0, 0⟩ : Pos) := by
    intro k
    simp [spiralCandidate]
  exact ⟨h.1, h.2.2 hconf (fun k _ => by rw [hcand k]; exact hconf)⟩

/-- C10: createEntity rejects any name shorter than 2 characters with a
validation error (the caught zod failure) and creates nothing — the store is
returned unchanged — even when the supplied roleId resolves to an existing
Role; and every successful call returns an entity whose avatar URL is derived
from the name (the ui-avatars URL over the percent-encoded name). -/
theorem c10_create_entity_validation_avatar (s : DB)
    (req : CreateEntityRequest) (newEntityId : String) :
    (req.name.length < 2 → (∃ role ∈ s.roles, role.id = req.roleId) →
      createEntity s req newEntityId = (s, .err 400 "Invalid data")) ∧
    (∀ s' eid, createEntity s req newEntityId = (s', EntityResult.ok eid) →
      ∃ e ∈ s'.entities, e.id = eid ∧ e.avatar = some (avatarUrl req.name)) := by
  constructor
  · intro hlen _
    rw [createEntity, if_pos]
    simp [hlen]
  · intro s' eid h
    rw [createEntity] at h
    split at h
    · simp at h
    · split at h
      · simp at h
      · rw [Prod.mk.injEq] at h
        obtain ⟨hs, hid⟩ := h
        rw [EntityResult.ok.injEq] at hid
        subst hid
        refine ⟨⟨newEntityId, req.name, req.roleId, req.entityType.getD "human",
          req.description, some (avatarUrl req.name)⟩, ?_, rfl, rfl⟩
        rw [← hs]
        exact List.mem_append_right _ (List.mem_singleton_self _)

/-- C10 witness. -/
theorem c10_create_entity_validation_avatar_witness :
    createEntity ⟨[], [⟨"r1", "Boss", "official", true⟩], [], [], [], [], []⟩
      ⟨"A", "r1", none, none⟩ "E9" =
    (⟨[], [⟨"r1", "Boss", "official", true⟩], [], [], [], [], []⟩,
     .err 400 "Invalid data") :=
  (c10_create_entity_validation_avatar
      ⟨[], [⟨"r1", "Boss", "official", true⟩], [], [], [], [], []⟩
      ⟨"A", "r1", none, none⟩ "E9").1 (by decide)
    ⟨⟨"r1", "Boss", "official", true⟩, by decide, rfl⟩

/-- C2 counterexample: with an empty client node list and edge list, saveGraph
leaves the store untouched — the non-root node `n1` and the edge `e0` both
survive, and the call reports success — because both `deleteMany` calls are
guarded by `sentIds.length > 0`.  The claim says the non-root nodes and all
edges would be deleted. -/
theorem c2_empty_save_deletes_nothing :
    saveGraph
      ⟨["g"], [], [⟨"E", "Ent", "r0", "human", none, none⟩],
       [⟨"n0", "g", "E", 0, 0, "root", none⟩,
        ⟨"n1", "g", "E", 3, 4, "custom", none⟩],
       [⟨"e0", "g", "n0", "n1", some "knows", none, none, none, none⟩],
       [], []⟩
      "g" [] [] =
    (⟨["g"], [], [⟨"E", "Ent", "r0", "human", none, none⟩],
      [⟨"n0", "g", "E", 0, 0, "root", none⟩,
       ⟨"n1", "g", "E", 3, 4, "custom", none⟩],
      [⟨"e0", "g", "n0", "n1", some "knows", none, none, none, none⟩],
      [], []⟩,
     SaveResult.ok) := by decide

/-- C2 amended: saving a graph with an empty node list (and edge list) deletes
nothing at all — both deletion passes are skipped because no ids were sent —
so every persisted node and edge survives: the call is a successful no-op. -/
theorem c2_empty_save_noop (s : DB) (dagId : String)
    (h : s.dags.contains dagId = true) :
    saveGraph s dagId [] [] = (s, SaveResult.ok) := by
  rw [saveGraph, h]
  simp [validateNodes, validateEdges, deleteMissingNodes, deleteMissingEdges,
    upsertNodes, upsertEdges]

/-- An event not named in the id list is left untouched by the reorder
update loop. -/
theorem reorderGo_not_listed (e : Event) :
    ∀ (ids : List String) (k : ℕ) (events : List Event), e ∈ events →
      e.id ∉ ids → e ∈ reorderGo k ids events := by
  intro ids
  induction ids with
  | nil => intro k events he _; exact he
  | cons a rest ih =>
    intro k events he hni
    rw [reorderGo]
    refine ih (k + 1) _ ?_ (fun hm => hni (List.mem_cons_of_mem _ hm))
    have hne : (e.id == a) = false := by
      simp only [beq_eq_false_iff_ne, ne_eq]
      exact fun hq => hni (hq ▸ List.mem_cons_self a rest)
    have : (fun e' => if e'.id == a then { e' with sortOrder := (k : ℤ) }
        else e') e = e := by
      simp [hne]
    exact this ▸ List.mem_map_of_mem _ he

/-- An event whose id sits at position `j` of a duplicate-free id list leaves
the reorder update loop with sortOrder `k + j`. -/
theorem reorderGo_listed (e : Event) :
    ∀ (ids : List String) (j k : ℕ) (events : List Event), ids.Nodup →
      ids[j]? = some e.id → e ∈ events →
      { e with sortOrder := ((k + j : ℕ) : ℤ) } ∈ reorderGo k ids events := by
  intro ids
  induction ids with
  | nil => intro j k events _ hg _; simp at hg
  | cons a rest ih =>
    intro j k events hnd hg he
    rw [reorderGo]
    match j, hg with
    | 0, hg =>
      have ha : a = e.id := by simpa using hg
      have hmem :
          ({ e with sortOrder := ((k + 0 : ℕ) : ℤ) } : Event) ∈
            events.map (fun e' => if e'.id == a then
              { e' with sortOrder := (k : ℤ) } else e') := by
        have : (fun e' => if e'.id == a then { e' with sortOrder := (k : ℤ) }
            else e') e = { e with sortOrder := ((k + 0 : ℕ) : ℤ) } := by
          simp [ha]
        exact this ▸ List.mem_map_of_mem _ he
      refine reorderGo_not_listed _ _ _ _ hmem ?_
      show ({ e with sortOrder := ((k + 0 : ℕ) : ℤ) } : Event).id ∉ rest
      have : ({ e with sortOrder := ((k + 0 : ℕ) : ℤ) } : Event).id = a := ha.symm
      rw [this]
      exact (List.nodup_cons.mp hnd).1
    | j' + 1, hg =>
      have hgr : rest[j']? = some e.id := by simpa using hg
      have hmemr : e.id ∈ rest := List.getElem?_mem hgr
      have hne : (e.id == a) = false := by
        simp only [beq_eq_false_iff_ne, ne_eq]
        intro hq
        exact (List.nodup_cons.mp hnd).1 (hq ▸ hmemr)
      have hstep : (fun e' => if e'.id == a then
          { e' with sortOrder := (k : ℤ) } else e') e = e := by
        simp [hne]
      have hmm := List.mem_map_of_mem (fun e' => if e'.id == a then
        { e' with sortOrder := (k : ℤ) } else e') he
      rw [hstep] at hmm
      have := ih j' (k + 1) _ (List.nodup_cons.mp hnd).2 hgr hmm
      have harith : ((k + 1) + j' : ℕ) = (k + (j' + 1) : ℕ) := by omega
      rw [harith] at this
      exact this

/-- C6 counterexample: three events e1,e2,e3 sit on the same date of graph g;
reordering with the id list [e2,e1] — which omits e3, so the supplied id set
does not equal the set of events found for that date — succeeds and applies
sortOrder changes (e2 ↦ 0, e1 ↦ 1, e3 untouched), where the claim requires a
ValidationError with no changes.  The handler only checks that every supplied
id matches an event on that date, not the converse. -/
theorem c6_reorder_omitted_events_accepted :
    reorderEvents
      ⟨["g"], [], [], [], [], [⟨"et", "meet", "i", "c"⟩],
       [⟨"e1", "g", "a", none, some 10, none, 0, "et", none, some "n1", none,
         [], none⟩,
        ⟨"e2", "g", "b", none, some 10, none, 1, "et", none, some "n1", none,
         [], none⟩,
        ⟨"e3", "g", "c", none, some 10, none, 2, "et", none, some "n1", none,
         [], none⟩]⟩
      ⟨some "g", some (some 10), some ["e2", "e1"]⟩ =
    (⟨["g"], [], [], [], [], [⟨"et", "meet", "i", "c"⟩],
      [⟨"e1", "g", "a", none, some 10, none, 1, "et", none, some "n1", none,
        [], none⟩,
       ⟨"e2", "g", "b", none, some 10, none, 0, "et", none, some "n1", none,
        [], none⟩,
       ⟨"e3", "g", "c", none, some 10, none, 2, "et", none, some "n1", none,
        [], none⟩]⟩,
     ReorderResult.ok) := by decide

/-- C6 amended: reorderEvents(dagId, date, ids) fails with a ValidationError —
applying no sortOrder changes — exactly when the number of events matching the
supplied ids on that date differs from the number of supplied ids (in
particular when a listed id does not exist on that date); an event on that
date that is merely omitted from the list is NOT an error: the call succeeds,
each listed event's sortOrder is rewritten to its index in the array, and the
omitted events keep their rows untouched. -/
theorem c6_reorder_amended (s : DB) (dagId : String) (t : ℚ)
    (ids : List String) (hdag : dagId ≠ "") :
    ((reorderFound s dagId t ids).length ≠ ids.length →
      reorderEvents s ⟨some dagId, some (some t), some ids⟩ =
        (s, .err 400 "Some events not found or not on the specified date")) ∧
    ((reorderFound s dagId t ids).length = ids.length → ids.Nodup →
      (reorderEvents s ⟨some dagId, some (some t), some ids⟩).2 =
        ReorderResult.ok ∧
      (∀ e ∈ s.events, e.id ∉ ids →
        e ∈ (reorderEvents s ⟨some dagId, some (some t), some ids⟩).1.events) ∧
      (∀ e ∈ s.events, ∀ j : ℕ, ids[j]? = some e.id →
        { e with sortOrder := (j : ℤ) } ∈
          (reorderEvents s ⟨some dagId, some (some t), some ids⟩).1.events)) := by
  have h1 : (dagId != "") = true := by simp [hdag]
  constructor
  · intro hlen
    simp [reorderEvents, truthyS, h1, hlen]
  · intro hlen hnd
    have hred : reorderEvents s ⟨some dagId, some (some t), some ids⟩ =
        ({ s with events := reorderGo 0 ids s.events }, ReorderResult.ok) := by
      simp [reorderEvents, truthyS, h1, hlen]
    rw [hred]
    refine ⟨rfl, ?_, ?_⟩
    · intro e he hni
      exact reorderGo_not_listed e ids 0 s.events he hni
    · intro e he j hj
      have h2 := reorderGo_listed e ids j 0 s.events hnd hj he
      simpa using h2

/-- C6 amended witness. -/
theorem c6_reorder_amended_witness :
    (reorderEvents
      ⟨["g"], [], [], [], [], [],
       [⟨"e1", "g", "a", none, some 10, none, 0, "et", none, some "n1", none,
         [], none⟩,
        ⟨"e2", "g", "b", none, some 10, none, 1, "et", none, some "n1", none,
         [], none⟩]⟩
      ⟨some "g", some (some 10), some ["e2", "e1"]⟩).2 = ReorderResult.ok :=
  ((c6_reorder_amended
      ⟨["g"], [], [], [], [], [],
       [⟨"e1", "g", "a", none, some 10, none, 0, "et", none, some "n1", none,
         [], none⟩,
        ⟨"e2", "g", "b", none, some 10, none, 1, "et", none, some "n1", none,
         [], none⟩]⟩
      "g" 10 ["e2", "e1"] (by decide)).2 (by decide) (by decide)).1

/-- C2 amended witness. -/
theorem c2_empty_save_noop_witness :
    saveGraph ⟨["g"], [], [], [⟨"n1", "g", "E", 3, 4, "custom", none⟩], [],
      [], []⟩ "g" [] [] =
    (⟨["g"], [], [], [⟨"n1", "g", "E", 3, 4, "custom", none⟩], [], [], []⟩,
     SaveResult.ok) :=
  c2_empty_save_noop _ _ (by decide)

/-- C1 counterexample: the root kind is client-controlled, so the root
invariant does NOT hold for all client submissions.  Starting from a graph
with exactly one root node at (0,0), a save that re-labels the root's kind as
"custom" succeeds and leaves the graph with zero root nodes: the upsert writes
the client-derived type over the persisted row (route.ts:349-388 trusts
`node.type === 'root'` from the request body), so a re-labelled root is
demoted and moved, violating the claimed exactly-one-root/(0,0) invariant. -/
theorem c1_root_demoted_by_client_kind :
    (saveGraph
      ⟨["g"], [], [⟨"E", "Ent", "r0", "human", none, none⟩],
       [⟨"n0", "g", "E", 0, 0, "root", none⟩], [], [], []⟩
      "g" [⟨"n0", some "custom", 5, 5, "E", none⟩] []).2 = SaveResult.ok ∧
    (saveGraph
      ⟨["g"], [], [⟨"E", "Ent", "r0", "human", none, none⟩],
       [⟨"n0", "g", "E", 0, 0, "root", none⟩], [], [], []⟩
      "g" [⟨"n0", some "custom", 5, 5, "E", none⟩] []).1.nodes.countP
        (isRootOf "g") = 0 := by
  decide

/-- C1 amended: the root invariant holds exactly when every submitted node
entry flags itself as root precisely when it carries the persisted root's id.
Under that client-honesty condition (plus unique persisted ids and the
invariant holding before the call), a successful saveGraph preserves it: the
root survives (deletion exempts kind=root rows), its position is clamped to
(0,0) by the upsert, no other node acquires the root kind, and the root count
is exactly one afterwards. -/
theorem c1_root_invariant_amended (s : DB) (dagId : String)
    (ns : List ClientNode) (es : List ClientEdge) (s' : DB) (r : DAGNode)
    (hok : saveGraph s dagId ns es = (s', SaveResult.ok))
    (hnd : (s.nodes.map DAGNode.id).Nodup)
    (hmem : r ∈ s.nodes) (hroot : isRootOf dagId r = true)
    (huniq : ∀ n ∈ s.nodes, isRootOf dagId n = true →
      n.id = r.id ∧ n.x = 0 ∧ n.y = 0)
    (hlabel : ∀ cn ∈ ns, (cn.type == some "root") = (cn.id == r.id)) :
    (∃ n ∈ s'.nodes, isRootOf dagId n = true ∧ n.id = r.id) ∧
    s'.nodes.countP (isRootOf dagId) = 1 ∧
    (∀ n ∈ s'.nodes, isRootOf dagId n = true →
      n.id = r.id ∧ n.x = 0 ∧ n.y = 0) := by
  unfold saveGraph at hok
  repeat' (first
    | split at hok
    | dsimp only at hok)
  all_goals rw [Prod.mk.injEq] at hok
  all_goals obtain ⟨hks, hkr⟩ := hok
  all_goals cases hkr
  rename_i s2 hun
  subst hks
  obtain ⟨hnd1, hex1, hall1⟩ := deleteMissingNodes_rootInv dagId r.id
    (ns.map ClientNode.id) s hnd ⟨r, hmem, hroot, rfl⟩ huniq
  obtain ⟨hnd2, hex2, hall2⟩ := upsertNodes_rootInv dagId r.id ns _ s2 hun
    hlabel hnd1 hex1 hall1
  rw [upsertEdges_nodes dagId es _, deleteMissingEdges_nodes]
  exact ⟨hex2, rootCount_eq_one dagId r.id s2.nodes hnd2 hex2
    (fun n hn hr => (hall2 n hn hr).1), hall2⟩

/-- C1 witness: an honestly-labelled save that moves the root to (5,5) still
ends with exactly one root at (0,0). -/
theorem c1_root_invariant_amended_witness :
    (∃ n ∈ (saveGraph
        ⟨["g"], [], [⟨"E", "Ent", "r0", "human", none, none⟩],
         [⟨"n0", "g", "E", 0, 0, "root", none⟩], [], [], []⟩
        "g" [⟨"n0", some "root", 5, 5, "E", none⟩] []).1.nodes,
      isRootOf "g" n = true ∧ n.id = "n0") ∧
    (saveGraph
        ⟨["g"], [], [⟨"E", "Ent", "r0", "human", none, none⟩],
         [⟨"n0", "g", "E", 0, 0, "root", none⟩], [], [], []⟩
        "g" [⟨"n0", some "root", 5, 5, "E", none⟩] []).1.nodes.countP
      (isRootOf "g") = 1 ∧
    (∀ n ∈ (saveGraph
        ⟨["g"], [], [⟨"E", "Ent", "r0", "human", none, none⟩],
         [⟨"n0", "g", "E", 0, 0, "root", none⟩], [], [], []⟩
        "g" [⟨"n0", some "root", 5, 5, "E", none⟩] []).1.nodes,
      isRootOf "g" n = true → n.id = "n0" ∧ n.x = 0 ∧ n.y = 0) := by
  exact c1_root_invariant_amended
    ⟨["g"], [], [⟨"E", "Ent", "r0", "human", none, none⟩],
     [⟨"n0", "g", "E", 0, 0, "root", none⟩], [], [], []⟩
    "g" [⟨"n0", some "root", 5, 5, "E", none⟩] []
    (saveGraph
      ⟨["g"], [], [⟨"E", "Ent", "r0", "human", none, none⟩],
       [⟨"n0", "g", "E", 0, 0, "root", none⟩], [], [], []⟩
      "g" [⟨"n0", some "root", 5, 5, "E", none⟩] []).1
    ⟨"n0", "g", "E", 0, 0, "root", none⟩
    (by decide) (by decide) (by decide) (by decide) (by decide) (by decide)

end Fullstori
